import Mathlib

/-!
# Verification of the XCM bridge-hub bridge registry pallet

Shallow embedding of `bridges/modules/xcm-bridge-hub/src/lib.rs`:
the `open_bridge` and `close_bridge` calls, the `Bridges` /
`LaneToBridge` storage maps, the `do_try_state` consistency audit,
`bridge_by_lane_id` and the genesis build routine.

External collaborators (the `BridgeLocations` resolver, the lanes
manager of the messages pallet, and the fungible hold/release escrow)
are not part of this repository slice; they are modelled from the
specification's stated contracts, each marked in its doc comment.

Storage maps are modelled as association lists with the usual
lookup/insert/remove operations; machine balances are `Nat` (the
pallet only subtracts amounts it previously checked or held, so no
wrap-around arises in the modelled operations).
-/

namespace XcmBridgeHub

/-! ## Association-list storage primitives -/

/-- Lookup of the first binding of key `k` (storage map read). -/
def lookupA {κ α : Type} [DecidableEq κ] : List (κ × α) → κ → Option α
  | [], _ => none
  | p :: rest, k => if p.1 = k then some p.2 else lookupA rest k

/-- Insert-or-replace of the binding of key `k` (storage map write). -/
def setA {κ α : Type} [DecidableEq κ] : List (κ × α) → κ → α → List (κ × α)
  | [], k, v => [(k, v)]
  | p :: rest, k, v => if p.1 = k then (k, v) :: rest else p :: setA rest k v

/-- Removal of every binding of key `k` (storage map remove). -/
def removeA {κ α : Type} [DecidableEq κ] : List (κ × α) → κ → List (κ × α)
  | [], _ => []
  | p :: rest, k => if p.1 = k then removeA rest k else p :: removeA rest k

/-- The keys of an association list. -/
def keysA {κ α : Type} : List (κ × α) → List κ :=
  List.map Prod.fst

/-! ## Data model -/

/-- Account identifiers (`AccountIdOf<ThisChainOf<T, I>>`), opaque. -/
abbrev AccountId := Nat

/-- Relative XCM locations (`Location`), opaque: the resolver treats
them as already-relative caller locations. -/
abbrev Location := Nat

/-- Interior (universal) XCM locations: a leading `GlobalConsensus`
network identifier plus an opaque remainder of the junction list. -/
structure InteriorLocation where
  network : Nat
  tail : Nat
deriving DecidableEq, Repr

/-- `BridgeId`: deterministically derived from the two universal
endpoint locations; modelling it as the pair itself gives the
idempotent, collision-free derivation the spec treats as an external
guarantee. -/
abbrev BridgeId := InteriorLocation × InteriorLocation

/-- `BridgeId::new` from `bp_xcm_bridge_hub`. Modelled from the spec:
an opaque deterministic derivation from the endpoint pair. -/
def BridgeId.new (origin destination : InteriorLocation) : BridgeId :=
  (origin, destination)

/-- `LaneId`, derived from the same location pair (plus a protocol
version tag that selects only the wire encoding). -/
abbrev LaneId := InteriorLocation × InteriorLocation

/-- Lane states of the messages pallet (`bp_messages::LaneState`). -/
inductive LaneState where
  | Opened
  | Closed
deriving DecidableEq, Repr

/-- Bridge states (`bp_xcm_bridge_hub::BridgeState`). -/
inductive BridgeState where
  | Opened
  | Closed
deriving DecidableEq, Repr

/-- Latest supported XCM version of the embedding. -/
def xcmLatestVersion : Nat := 5

/-- Versions convertible to the latest one. -/
def isSupportedVersion (v : Nat) : Bool := 3 ≤ v && v ≤ 5

/-- A versioned interior location: wire version paired with payload. -/
abbrev VersionedInteriorLocation := Nat × InteriorLocation

/-- A versioned relative location: wire version paired with payload. -/
abbrev VersionedLocation := Nat × Location

/-- `try_into` conversion of a versioned interior location into the
canonical (latest) form. Modelled from the spec: conversion failure
for unsupported wire versions yields `UnsupportedXcmVersion`. -/
def tryIntoLatestInterior (l : VersionedInteriorLocation) : Option InteriorLocation :=
  if isSupportedVersion l.1 then some l.2 else none

/-- `try_as` access to a versioned interior location at the latest
version only (no conversion), as used by the consistency audit. -/
def tryAsLatestInterior (l : VersionedInteriorLocation) : Option InteriorLocation :=
  if l.1 = xcmLatestVersion then some l.2 else none

/-- `try_as` access to a versioned relative location at the latest
version only (no conversion), as used by the consistency audit. -/
def tryAsLatestLocation (l : VersionedLocation) : Option Location :=
  if l.1 = xcmLatestVersion then some l.2 else none

/-- The `Bridge` metadata record stored in the `Bridges` map. -/
structure Bridge where
  bridge_origin_relative_location : VersionedLocation
  bridge_origin_universal_location : VersionedInteriorLocation
  bridge_destination_universal_location : VersionedInteriorLocation
  state : BridgeState
  bridge_owner_account : AccountId
  reserve : Nat
  lane_id : LaneId
deriving DecidableEq, Repr

/-- Outbound lane record: lane state plus the FIFO queue of queued
message nonces, oldest first. Modelled from the spec: the Lane Store
exposes `queued_messages` as an ordered sequence and
`remove_oldest_unpruned_message` removes its head. -/
structure OutboundLaneData where
  state : LaneState
  queue : List Nat
deriving DecidableEq, Repr

/-- Events deposited by the pallet. -/
inductive Event where
  | BridgeOpened (bridge_id : BridgeId) (bridge_deposit : Option Nat)
      (local_endpoint remote_endpoint : InteriorLocation) (lane_id : LaneId)
  | ClosingBridge (bridge_id : BridgeId) (lane_id : LaneId)
      (pruned_messages enqueued_messages : Nat)
  | BridgePruned (bridge_id : BridgeId) (lane_id : LaneId)
      (bridge_deposit : Option Nat) (pruned_messages : Nat)
deriving DecidableEq, Repr

/-- The full observable state: the pallet's two storage maps, the lane
store of the associated messages pallet, and the escrow ledger (free
and held balances per account, held under the bridge-deposit reason). -/
structure PalletState where
  bridges : List (BridgeId × Bridge)
  laneToBridge : List (LaneId × BridgeId)
  inboundLanes : List (LaneId × LaneState)
  outboundLanes : List (LaneId × OutboundLaneData)
  free : List (AccountId × Nat)
  held : List (AccountId × Nat)
  events : List Event
deriving DecidableEq, Repr

/-- The runtime configuration of the pallet: `UniversalLocation`,
`BridgedNetwork`, `BridgeDeposit`, the
`BridgeOriginAccountIdConverter` and the escrow's external failure
mode. `releaseFails` abstracts the conditions under which the
best-effort escrow release errors (e.g. funds already unreserved by an
unrelated path), which the spec treats as an external possibility. -/
structure Ctx where
  universalLocation : InteriorLocation
  bridgedNetwork : Nat
  bridgeDeposit : Nat
  convertLocation : Location → Option AccountId
  releaseFails : AccountId → Nat → Bool

/-! ## Errors -/

/-- `bp_xcm_bridge_hub::BridgeLocationsError` (the sub-reasons of the
location resolver). -/
inductive BridgeLocationsError where
  | InvalidBridgeOrigin
  | DestinationIsLocal
  | UnreachableDestination
  | InvalidBridgeDestination
  | UnsupportedXcmVersion
deriving DecidableEq, Repr

/-- `pallet_bridge_messages::LanesManagerError`. -/
inductive LanesManagerError where
  | UnknownInboundLane
  | UnknownOutboundLane
  | InboundLaneAlreadyExists
  | OutboundLaneAlreadyExists
deriving DecidableEq, Repr

/-- The pallet's `Error` enum, extended with `BadOrigin` for the
dispatch-level origin filter failure. -/
inductive PalletError where
  | BadOrigin
  | BridgeLocations (e : BridgeLocationsError)
  | InvalidBridgeOriginAccount
  | BridgeAlreadyExists
  | LanesManager (e : LanesManagerError)
  | UnknownBridge
  | FailedToReserveBridgeDeposit
  | UnsupportedXcmVersion
deriving DecidableEq, Repr

/-! ## External collaborators (modelled from the spec) -/

/-- The resolved bridge locations (`bp_xcm_bridge_hub::BridgeLocations`). -/
structure BridgeLocations where
  bridge_origin_relative_location : Location
  bridge_origin_universal_location : InteriorLocation
  bridge_destination_universal_location : InteriorLocation
  bridge_id : BridgeId
deriving DecidableEq, Repr

/-- Modelled from the spec: `BridgeLocations::bridge_locations`, the
pure location resolver. It fails with `DestinationIsLocal` when the
destination equals the local universal location and with
`UnreachableDestination` when the destination's network is not the
configured bridged network; otherwise it extends the local universal
location by the caller's relative location (an injective pairing) and
derives the `BridgeId` from the two universal endpoints. -/
def BridgeLocations.bridge_locations (universal_location : InteriorLocation)
    (bridge_origin_relative_location : Location)
    (bridge_destination_universal_location : InteriorLocation)
    (bridged_network : Nat) : Except BridgeLocationsError BridgeLocations :=
  if bridge_destination_universal_location = universal_location then
    Except.error BridgeLocationsError.DestinationIsLocal
  else if bridge_destination_universal_location.network ≠ bridged_network then
    Except.error BridgeLocationsError.UnreachableDestination
  else
    let origin_universal : InteriorLocation :=
      ⟨universal_location.network, Nat.pair universal_location.tail bridge_origin_relative_location⟩
    Except.ok
      { bridge_origin_relative_location
        bridge_origin_universal_location := origin_universal
        bridge_destination_universal_location
        bridge_id := BridgeId.new origin_universal bridge_destination_universal_location }

/-- Modelled from the spec: `BridgeLocations::calculate_lane_id`,
deriving the dedicated lane from the same location pair; it fails for
wire versions that cannot encode the locations. -/
def BridgeLocations.calculate_lane_id (locs : BridgeLocations) (xcm_version : Nat) :
    Except BridgeLocationsError LaneId :=
  if isSupportedVersion xcm_version then
    Except.ok (locs.bridge_origin_universal_location, locs.bridge_destination_universal_location)
  else
    Except.error BridgeLocationsError.UnsupportedXcmVersion

/-- Modelled from the spec: `Currency::hold` of the escrow ledger,
moving `amount` from the account's free balance to its held balance,
failing when free funds are insufficient. -/
def hold_deposit (account : AccountId) (amount : Nat) (s : PalletState) : Option PalletState :=
  if (lookupA s.free account).getD 0 < amount then none
  else some { s with
    free := setA s.free account ((lookupA s.free account).getD 0 - amount)
    held := setA s.held account ((lookupA s.held account).getD 0 + amount) }

/-- Modelled from the spec: `Currency::release` with best-effort
precision: unless the externally-determined failure mode triggers, it
releases `min (requested, held)` back to the free balance and reports
the actually-released amount; on failure it reports nothing. -/
def release_best_effort (ctx : Ctx) (account : AccountId) (amount : Nat) (s : PalletState) :
    PalletState × Option Nat :=
  if ctx.releaseFails account amount then (s, none)
  else
    let h := (lookupA s.held account).getD 0
    let r := min amount h
    ({ s with
        held := setA s.held account (h - r)
        free := setA s.free account ((lookupA s.free account).getD 0 + r) }, some r)

/-- Modelled from the spec: `LanesManager::create_inbound_lane`,
creating the lane in state `Opened`, failing when it already exists. -/
def create_inbound_lane (lane : LaneId) (s : PalletState) : Except LanesManagerError PalletState :=
  match lookupA s.inboundLanes lane with
  | some _ => Except.error LanesManagerError.InboundLaneAlreadyExists
  | none => Except.ok { s with inboundLanes := setA s.inboundLanes lane LaneState.Opened }

/-- Modelled from the spec: `LanesManager::create_outbound_lane`,
creating the lane in state `Opened` with an empty queue, failing when
it already exists. -/
def create_outbound_lane (lane : LaneId) (s : PalletState) : Except LanesManagerError PalletState :=
  match lookupA s.outboundLanes lane with
  | some _ => Except.error LanesManagerError.OutboundLaneAlreadyExists
  | none => Except.ok
      { s with outboundLanes := setA s.outboundLanes lane ⟨LaneState.Opened, []⟩ }

/-! ## The pallet calls (embedded from `src/bridges/modules/xcm-bridge-hub/src/lib.rs`) -/

/-- `Pallet::open_bridge` (lib.rs lines 195-281): resolve locations
and lane id, derive and charge the owner account, strictly-create the
`Bridges` and `LaneToBridge` entries, create both lanes and deposit
the `BridgeOpened` event. Origin checking
(`OpenBridgeOrigin::ensure_origin`) is modelled as requiring a present
relative location. -/
def open_bridge (ctx : Ctx) (origin : Option Location)
    (bridge_destination_universal_location : VersionedInteriorLocation) (s : PalletState) :
    Except PalletError PalletState :=
  match origin with
  | none => Except.error PalletError.BadOrigin
  | some rel =>
    match tryIntoLatestInterior bridge_destination_universal_location with
    | none => Except.error PalletError.UnsupportedXcmVersion
    | some dest =>
      match BridgeLocations.bridge_locations ctx.universalLocation rel dest ctx.bridgedNetwork with
      | Except.error e => Except.error (PalletError.BridgeLocations e)
      | Except.ok locations =>
        match locations.calculate_lane_id bridge_destination_universal_location.1 with
        | Except.error e => Except.error (PalletError.BridgeLocations e)
        | Except.ok lane_id =>
          match ctx.convertLocation locations.bridge_origin_relative_location with
          | none => Except.error PalletError.InvalidBridgeOriginAccount
          | some bridge_owner_account =>
            match hold_deposit bridge_owner_account ctx.bridgeDeposit s with
            | none => Except.error PalletError.FailedToReserveBridgeDeposit
            | some s1 =>
              match lookupA s1.bridges locations.bridge_id with
              | some _ => Except.error PalletError.BridgeAlreadyExists
              | none =>
                let newBridge : Bridge :=
                  { bridge_origin_relative_location :=
                      (xcmLatestVersion, locations.bridge_origin_relative_location)
                    bridge_origin_universal_location :=
                      (xcmLatestVersion, locations.bridge_origin_universal_location)
                    bridge_destination_universal_location :=
                      (xcmLatestVersion, locations.bridge_destination_universal_location)
                    state := BridgeState.Opened
                    bridge_owner_account
                    reserve := ctx.bridgeDeposit
                    lane_id }
                let s2 := { s1 with bridges := setA s1.bridges locations.bridge_id newBridge }
                match lookupA s2.laneToBridge lane_id with
                | some _ => Except.error PalletError.BridgeAlreadyExists
                | none =>
                  let s3 := { s2 with laneToBridge := setA s2.laneToBridge lane_id locations.bridge_id }
                  match create_inbound_lane lane_id s3 with
                  | Except.error e => Except.error (PalletError.LanesManager e)
                  | Except.ok s4 =>
                    match create_outbound_lane lane_id s4 with
                    | Except.error e => Except.error (PalletError.LanesManager e)
                    | Except.ok s5 =>
                      Except.ok { s5 with events := s5.events ++
                        [Event.BridgeOpened locations.bridge_id (some ctx.bridgeDeposit)
                          locations.bridge_origin_universal_location
                          locations.bridge_destination_universal_location lane_id] }

/-- The pruning loop of `close_bridge` (lib.rs lines 334-342): iterate
over a snapshot of the queued messages, stop once the per-call budget
is reached, otherwise remove the oldest unpruned message and count
it. -/
def pruneLoop (snapshot : List Nat) (budget : Nat) (queue : List Nat) (pruned : Nat) :
    List Nat × Nat :=
  match snapshot with
  | [] => (queue, pruned)
  | _ :: rest =>
    if pruned = budget then (queue, pruned)
    else pruneLoop rest budget queue.tail (pruned + 1)

/-- `Pallet::close_bridge` (lib.rs lines 302-417): resolve locations,
flip the stored bridge state to `Closed` (failing with `UnknownBridge`
when absent), obtain both lanes in any state, prune up to
`may_prune_messages` oldest messages, then either close the lanes and
deposit `ClosingBridge` (queue still non-empty) or purge the lanes,
remove both map entries, best-effort release the reserve and deposit
`BridgePruned`. -/
def close_bridge (ctx : Ctx) (origin : Option Location)
    (bridge_destination_universal_location : VersionedInteriorLocation)
    (may_prune_messages : Nat) (s : PalletState) : Except PalletError PalletState :=
  match origin with
  | none => Except.error PalletError.BadOrigin
  | some rel =>
    match tryIntoLatestInterior bridge_destination_universal_location with
    | none => Except.error PalletError.UnsupportedXcmVersion
    | some dest =>
      match BridgeLocations.bridge_locations ctx.universalLocation rel dest ctx.bridgedNetwork with
      | Except.error e => Except.error (PalletError.BridgeLocations e)
      | Except.ok locations =>
        match lookupA s.bridges locations.bridge_id with
        | none => Except.error PalletError.UnknownBridge
        | some bridge0 =>
          let bridge := { bridge0 with state := BridgeState.Closed }
          let s1 := { s with bridges := setA s.bridges locations.bridge_id bridge }
          match lookupA s1.inboundLanes bridge.lane_id with
          | none => Except.error (PalletError.LanesManager LanesManagerError.UnknownInboundLane)
          | some _ =>
            match lookupA s1.outboundLanes bridge.lane_id with
            | none => Except.error (PalletError.LanesManager LanesManagerError.UnknownOutboundLane)
            | some outbound =>
              let pr := pruneLoop outbound.queue may_prune_messages outbound.queue 0
              if pr.1 ≠ [] then
                let s2 := { s1 with
                  inboundLanes := setA s1.inboundLanes bridge.lane_id LaneState.Closed
                  outboundLanes := setA s1.outboundLanes bridge.lane_id ⟨LaneState.Closed, pr.1⟩ }
                Except.ok { s2 with events := s2.events ++
                  [Event.ClosingBridge locations.bridge_id bridge.lane_id pr.2 pr.1.length] }
              else
                let s2 := { s1 with
                  inboundLanes := removeA s1.inboundLanes bridge.lane_id
                  outboundLanes := removeA s1.outboundLanes bridge.lane_id }
                let s3 := { s2 with
                  bridges := removeA s2.bridges locations.bridge_id
                  laneToBridge := removeA s2.laneToBridge bridge.lane_id }
                let rel_res := release_best_effort ctx bridge.bridge_owner_account bridge.reserve s3
                Except.ok { rel_res.1 with events := rel_res.1.events ++
                  [Event.BridgePruned locations.bridge_id bridge.lane_id rel_res.2 pr.2] }

/-- Modelled from the spec: FRAME executes each dispatchable inside a
transactional storage layer, so a call either fully completes or fully
aborts — an early error return leaves no partial writes behind. -/
def dispatch_result (s : PalletState) (r : Except PalletError PalletState) :
    PalletState × Option PalletError :=
  match r with
  | Except.ok s2 => (s2, none)
  | Except.error e => (s, some e)

/-- The observable effect of dispatching `open_bridge`. -/
def open_bridge_call (ctx : Ctx) (origin : Option Location)
    (dest : VersionedInteriorLocation) (s : PalletState) : PalletState × Option PalletError :=
  dispatch_result s (open_bridge ctx origin dest s)

/-- The observable effect of dispatching `close_bridge`. -/
def close_bridge_call (ctx : Ctx) (origin : Option Location)
    (dest : VersionedInteriorLocation) (may_prune_messages : Nat) (s : PalletState) :
    PalletState × Option PalletError :=
  dispatch_result s (close_bridge ctx origin dest may_prune_messages s)

/-- `Pallet::bridge_by_lane_id` (lib.rs lines 457-460). -/
def bridge_by_lane_id (s : PalletState) (lane_id : LaneId) : Option (BridgeId × Bridge) :=
  (lookupA s.laneToBridge lane_id).bind
    (fun bridge_id => (lookupA s.bridges bridge_id).map (fun bridge => (bridge_id, bridge)))

/-! ## Consistency audit (lib.rs lines 479-537) -/

/-- `Pallet::do_try_state_for_bridge`: per-bridge consistency checks,
returning the bridge's lane on success. -/
def do_try_state_for_bridge (ctx : Ctx) (s : PalletState) (bridge_id : BridgeId)
    (bridge : Bridge) : Except String LaneId :=
  if lookupA s.laneToBridge bridge.lane_id ≠ some bridge_id then
    Except.error "Found LaneToBridge inconsistency for bridge_id - missing mapping!"
  else match tryAsLatestLocation bridge.bridge_origin_relative_location with
  | none =>
    Except.error "bridge_origin_relative_location cannot be converted to the latest XCM, needs migration!"
  | some rel =>
    match tryAsLatestInterior bridge.bridge_origin_universal_location with
    | none =>
      Except.error "bridge_origin_universal_location cannot be converted to the latest XCM, needs migration!"
    | some origin_universal =>
      match tryAsLatestInterior bridge.bridge_destination_universal_location with
      | none =>
        Except.error "bridge_destination_universal_location cannot be converted to the latest XCM, needs migration!"
      | some destination_universal =>
        if bridge_id ≠ BridgeId.new origin_universal destination_universal then
          Except.error "bridge_id is different than calculated, needs migration!"
        else if ctx.convertLocation rel ≠ some bridge.bridge_owner_account then
          Except.error "bridge_owner_account is different than calculated, needs migration!"
        else Except.ok bridge.lane_id

/-- Set-insertion into the `BTreeSet` of audited lanes. -/
def insertLaneSet (lanes : List LaneId) (lane : LaneId) : List LaneId :=
  if lane ∈ lanes then lanes else lanes ++ [lane]

/-- The audit's fold over all stored bridges, collecting the set of
their lanes. -/
def collectLanes (ctx : Ctx) (s : PalletState) :
    List (BridgeId × Bridge) → List LaneId → Except String (List LaneId)
  | [], acc => Except.ok acc
  | p :: rest, acc =>
    match do_try_state_for_bridge ctx s p.1 p.2 with
    | Except.error e => Except.error e
    | Except.ok lane => collectLanes ctx s rest (insertLaneSet acc lane)

/-- `Pallet::do_try_state`: audit every bridge, then check that the
lane set, the `Bridges` map and the `LaneToBridge` map all have the
same cardinality. -/
def do_try_state (ctx : Ctx) (s : PalletState) : Except String Unit :=
  match collectLanes ctx s s.bridges [] with
  | Except.error e => Except.error e
  | Except.ok lanes =>
    if lanes.length ≠ s.bridges.length then
      Except.error "Invalid Bridges configuration, probably two bridges handle the same laneId!"
    else if lanes.length ≠ s.laneToBridge.length then
      Except.error "Invalid LaneToBridge configuration, probably missing or not removed laneId!"
    else Except.ok ()

/-! ## Genesis build (lib.rs lines 569-613) -/

/-- One iteration of `GenesisConfig::build`: resolve the configured
pair, insert the `Bridge` with state `Opened` and zero reserve (no
deposit is held at genesis), insert the reverse-index entry and create
both lanes; any failure corresponds to the `expect` panics of the
source. -/
def genesis_build_bridge (ctx : Ctx) (p : Location × InteriorLocation) (s : PalletState) :
    Except String PalletState :=
  match BridgeLocations.bridge_locations ctx.universalLocation p.1 p.2 ctx.bridgedNetwork with
  | Except.error _ => Except.error "Invalid genesis configuration"
  | Except.ok locations =>
    match locations.calculate_lane_id xcmLatestVersion with
    | Except.error _ => Except.error "Valid locations"
    | Except.ok lane_id =>
      match ctx.convertLocation locations.bridge_origin_relative_location with
      | none => Except.error "Invalid genesis configuration"
      | some bridge_owner_account =>
        let newBridge : Bridge :=
          { bridge_origin_relative_location :=
              (xcmLatestVersion, locations.bridge_origin_relative_location)
            bridge_origin_universal_location :=
              (xcmLatestVersion, locations.bridge_origin_universal_location)
            bridge_destination_universal_location :=
              (xcmLatestVersion, locations.bridge_destination_universal_location)
            state := BridgeState.Opened
            bridge_owner_account
            reserve := 0
            lane_id }
        let s1 := { s with
          bridges := setA s.bridges locations.bridge_id newBridge
          laneToBridge := setA s.laneToBridge lane_id locations.bridge_id }
        match create_inbound_lane lane_id s1 with
        | Except.error _ => Except.error "Invalid genesis configuration"
        | Except.ok s2 =>
          match create_outbound_lane lane_id s2 with
          | Except.error _ => Except.error "Invalid genesis configuration"
          | Except.ok s3 => Except.ok s3

/-- `GenesisConfig::build`: fold `genesis_build_bridge` over the
configured `opened_bridges`. -/
def genesis_build (ctx : Ctx) : List (Location × InteriorLocation) → PalletState →
    Except String PalletState
  | [], s => Except.ok s
  | p :: rest, s =>
    match genesis_build_bridge ctx p s with
    | Except.error e => Except.error e
    | Except.ok s1 => genesis_build ctx rest s1

/-! ## Reachability -/

/-- A state with empty registry maps (the pallet's storage before any
call; balances, lanes and events are unconstrained). -/
def emptyRegistry (s : PalletState) : Prop :=
  s.bridges = [] ∧ s.laneToBridge = []

/-- The fully empty state used as the genesis baseline. -/
def emptyState : PalletState :=
  ⟨[], [], [], [], [], [], []⟩

/-- A state that was produced by building some genesis configuration
over the empty state. -/
def genesisSeeded (ctx : Ctx) (s : PalletState) : Prop :=
  ∃ cfg s0, (emptyRegistry s0 ∧ s0.inboundLanes = [] ∧ s0.outboundLanes = []) ∧
    genesis_build ctx cfg s0 = Except.ok s

/-- One successful (dispatched) pallet call. -/
inductive SuccessfulCall (ctx : Ctx) : PalletState → PalletState → Prop where
  | openCall (origin : Option Location) (dest : VersionedInteriorLocation)
      (s s2 : PalletState) : open_bridge ctx origin dest s = Except.ok s2 →
      SuccessfulCall ctx s s2
  | closeCall (origin : Option Location) (dest : VersionedInteriorLocation)
      (n : Nat) (s s2 : PalletState) : close_bridge ctx origin dest n s = Except.ok s2 →
      SuccessfulCall ctx s s2

/-- Reachability through successful open/close calls. -/
def Reachable (ctx : Ctx) (s0 s : PalletState) : Prop :=
  Relation.ReflTransGen (SuccessfulCall ctx) s0 s

/-! ## Association-list lemmas -/

theorem keysA_nil {κ α : Type} : keysA (α := α) ([] : List (κ × α)) = [] := rfl

theorem keysA_cons {κ α : Type} (p : κ × α) (l : List (κ × α)) :
    keysA (p :: l) = p.1 :: keysA l := rfl

theorem lookupA_eq_none {κ α : Type} [DecidableEq κ] (l : List (κ × α)) (k : κ) :
    lookupA l k = none ↔ k ∉ keysA l := by
  induction l with
  | nil => simp [lookupA, keysA]
  | cons p rest ih =>
    by_cases h : p.1 = k
    · simp [lookupA, keysA, h]
    · simp [lookupA, keysA, h, ih, Ne.symm h]

theorem lookupA_mem {κ α : Type} [DecidableEq κ] {l : List (κ × α)} {k : κ} {v : α}
    (h : lookupA l k = some v) : (k, v) ∈ l := by
  induction l with
  | nil => simp [lookupA] at h
  | cons p rest ih =>
    obtain ⟨a, b⟩ := p
    by_cases hp : a = k
    · subst hp
      simp only [lookupA, if_pos] at h
      cases h
      exact List.mem_cons_self _ _
    · simp only [lookupA, if_neg hp] at h
      exact List.mem_cons_of_mem _ (ih h)

theorem mem_lookupA {κ α : Type} [DecidableEq κ] {l : List (κ × α)} {k : κ} {v : α}
    (hnd : (keysA l).Nodup) (h : (k, v) ∈ l) : lookupA l k = some v := by
  induction l with
  | nil => simp at h
  | cons p rest ih =>
    rw [keysA_cons, List.nodup_cons] at hnd
    rcases List.mem_cons.mp h with h1 | h1
    · subst h1
      simp [lookupA]
    · have hk : p.1 ≠ k := by
        intro he
        exact hnd.1 (he ▸ (List.mem_map_of_mem Prod.fst h1))
      simp [lookupA, hk, ih hnd.2 h1]

theorem lookupA_entry_unique {κ α : Type} [DecidableEq κ] {l : List (κ × α)} {k : κ}
    {v1 v2 : α} (hnd : (keysA l).Nodup) (h1 : (k, v1) ∈ l) (h2 : (k, v2) ∈ l) : v1 = v2 := by
  have e1 := mem_lookupA hnd h1
  have e2 := mem_lookupA hnd h2
  rw [e1] at e2
  exact Option.some_injective _ e2

theorem lookupA_setA_self {κ α : Type} [DecidableEq κ] (l : List (κ × α)) (k : κ) (v : α) :
    lookupA (setA l k v) k = some v := by
  induction l with
  | nil => simp [setA, lookupA]
  | cons p rest ih =>
    by_cases h : p.1 = k
    · simp [setA, lookupA, h]
    · simp [setA, lookupA, h, ih]

theorem lookupA_setA_ne {κ α : Type} [DecidableEq κ] (l : List (κ × α)) (k k' : κ) (v : α)
    (h : k' ≠ k) : lookupA (setA l k v) k' = lookupA l k' := by
  induction l with
  | nil => simp [setA, lookupA, Ne.symm h]
  | cons p rest ih =>
    obtain ⟨a, b⟩ := p
    by_cases hp : a = k
    · subst hp
      simp [setA, lookupA, Ne.symm h]
    · by_cases hp' : a = k'
      · subst hp'
        simp [setA, lookupA, hp]
      · simp [setA, lookupA, hp, hp', ih]

theorem setA_of_not_mem {κ α : Type} [DecidableEq κ] {l : List (κ × α)} {k : κ} (v : α)
    (h : k ∉ keysA l) : setA l k v = l ++ [(k, v)] := by
  induction l with
  | nil => simp [setA]
  | cons p rest ih =>
    rw [keysA_cons] at h
    simp only [List.mem_cons, not_or] at h
    have hp : ¬p.1 = k := fun he => h.1 he.symm
    simp [setA, hp, ih h.2]

theorem keysA_setA_of_mem {κ α : Type} [DecidableEq κ] {l : List (κ × α)} {k : κ} (v : α)
    (h : k ∈ keysA l) : keysA (setA l k v) = keysA l := by
  induction l with
  | nil => simp [keysA] at h
  | cons p rest ih =>
    by_cases hp : p.1 = k
    · simp [setA, hp, keysA_cons]
    · rw [keysA_cons] at h
      rcases List.mem_cons.mp h with h1 | h1
      · exact absurd h1.symm hp
      · simp [setA, hp, keysA_cons, ih h1]

theorem length_setA_of_mem {κ α : Type} [DecidableEq κ] {l : List (κ × α)} {k : κ} (v : α)
    (h : k ∈ keysA l) : (setA l k v).length = l.length := by
  have := keysA_setA_of_mem (l := l) (k := k) v h
  have h1 : (keysA (setA l k v)).length = (keysA l).length := by rw [this]
  simpa [keysA, List.length_map] using h1

theorem mem_setA_elim {κ α : Type} [DecidableEq κ] {l : List (κ × α)} {k k' : κ} {v v' : α}
    (h : (k', v') ∈ setA l k v) : (k' = k ∧ v' = v) ∨ (k', v') ∈ l := by
  induction l with
  | nil =>
    simp [setA] at h
    exact Or.inl ⟨h.1, h.2⟩
  | cons p rest ih =>
    by_cases hp : p.1 = k
    · simp only [setA, hp, if_pos] at h
      rcases List.mem_cons.mp h with h1 | h1
      · cases h1
        exact Or.inl ⟨rfl, rfl⟩
      · exact Or.inr (List.mem_cons_of_mem _ h1)
    · simp only [setA, hp, if_neg, if_false] at h
      rcases List.mem_cons.mp h with h1 | h1
      · exact Or.inr (h1 ▸ List.mem_cons_self _ _)
      · rcases ih h1 with h2 | h2
        · exact Or.inl h2
        · exact Or.inr (List.mem_cons_of_mem _ h2)

theorem lookupA_removeA_self {κ α : Type} [DecidableEq κ] (l : List (κ × α)) (k : κ) :
    lookupA (removeA l k) k = none := by
  induction l with
  | nil => simp [removeA, lookupA]
  | cons p rest ih =>
    by_cases hp : p.1 = k
    · simp [removeA, hp, ih]
    · simp [removeA, lookupA, hp, ih]

theorem lookupA_removeA_ne {κ α : Type} [DecidableEq κ] (l : List (κ × α)) (k k' : κ)
    (h : k' ≠ k) : lookupA (removeA l k) k' = lookupA l k' := by
  induction l with
  | nil => simp [removeA]
  | cons p rest ih =>
    obtain ⟨a, b⟩ := p
    by_cases hp : a = k
    · subst hp
      simp [removeA, lookupA, Ne.symm h, ih]
    · by_cases hp' : a = k'
      · subst hp'
        simp [removeA, lookupA, hp]
      · simp [removeA, lookupA, hp, hp', ih]

theorem mem_removeA {κ α : Type} [DecidableEq κ] {l : List (κ × α)} {k k' : κ} {v' : α} :
    (k', v') ∈ removeA l k ↔ (k', v') ∈ l ∧ k' ≠ k := by
  induction l with
  | nil => simp [removeA]
  | cons p rest ih =>
    obtain ⟨a, b⟩ := p
    by_cases hp : a = k
    · subst hp
      constructor
      · intro h
        rw [removeA, if_pos rfl] at h
        have h1 := ih.mp h
        exact ⟨List.mem_cons_of_mem _ h1.1, h1.2⟩
      · rintro ⟨h1, h2⟩
        rw [removeA, if_pos rfl]
        rcases List.mem_cons.mp h1 with h3 | h3
        · cases h3
          exact absurd rfl h2
        · exact ih.mpr ⟨h3, h2⟩
    · constructor
      · intro h
        rw [removeA, if_neg hp] at h
        rcases List.mem_cons.mp h with h3 | h3
        · cases h3
          exact ⟨List.mem_cons_self _ _, fun he => hp he⟩
        · have h1 := ih.mp h3
          exact ⟨List.mem_cons_of_mem _ h1.1, h1.2⟩
      · rintro ⟨h1, h2⟩
        rw [removeA, if_neg hp]
        rcases List.mem_cons.mp h1 with h3 | h3
        · exact h3 ▸ List.mem_cons_self _ _
        · exact List.mem_cons_of_mem _ (ih.mpr ⟨h3, h2⟩)

theorem keysA_removeA_nodup {κ α : Type} [DecidableEq κ] {l : List (κ × α)} (k : κ)
    (hnd : (keysA l).Nodup) : (keysA (removeA l k)).Nodup := by
  induction l with
  | nil => simp [removeA, keysA]
  | cons p rest ih =>
    rw [keysA_cons, List.nodup_cons] at hnd
    by_cases hp : p.1 = k
    · rw [removeA, if_pos hp]
      exact ih hnd.2
    · rw [removeA, if_neg hp, keysA_cons, List.nodup_cons]
      refine ⟨fun hmem => ?_, ih hnd.2⟩
      rcases List.mem_map.mp hmem with ⟨q, hq, hq1⟩
      exact hnd.1 (List.mem_map.mpr ⟨q, (mem_removeA.mp (by cases q; exact hq)).1, hq1⟩)

theorem keysA_removeA_not_mem {κ α : Type} [DecidableEq κ] {l : List (κ × α)} (k : κ) :
    k ∉ keysA (removeA l k) := by
  intro h
  rcases List.mem_map.mp h with ⟨q, hq, hq1⟩
  cases q
  have := (mem_removeA.mp hq).2
  exact this hq1

theorem removeA_of_not_mem {κ α : Type} [DecidableEq κ] {l : List (κ × α)} {k : κ}
    (h : k ∉ keysA l) : removeA l k = l := by
  induction l with
  | nil => rfl
  | cons p rest ih =>
    rw [keysA_cons] at h
    simp only [List.mem_cons, not_or] at h
    have hp : ¬p.1 = k := fun he => h.1 he.symm
    rw [removeA, if_neg hp, ih h.2]

theorem length_removeA {κ α : Type} [DecidableEq κ] {l : List (κ × α)} {k : κ}
    (hnd : (keysA l).Nodup) (h : k ∈ keysA l) : (removeA l k).length + 1 = l.length := by
  induction l with
  | nil => simp [keysA] at h
  | cons p rest ih =>
    rw [keysA_cons, List.nodup_cons] at hnd
    by_cases hp : p.1 = k
    · rw [removeA, if_pos hp]
      rw [removeA_of_not_mem (hp ▸ hnd.1)]
      simp
    · rw [keysA_cons] at h
      rcases List.mem_cons.mp h with h1 | h1
      · exact absurd h1.symm hp
      · rw [removeA, if_neg hp]
        simp only [List.length_cons]
        rw [← ih hnd.2 h1]

theorem removeA_setA {κ α : Type} [DecidableEq κ] (l : List (κ × α)) (k : κ) (v : α) :
    removeA (setA l k v) k = removeA l k := by
  induction l with
  | nil => simp [setA, removeA]
  | cons p rest ih =>
    by_cases hp : p.1 = k
    · simp [setA, removeA, hp]
    · simp [setA, removeA, hp, ih]

theorem keysA_nodup_setA {κ α : Type} [DecidableEq κ] {l : List (κ × α)} (k : κ) (v : α)
    (hnd : (keysA l).Nodup) : (keysA (setA l k v)).Nodup := by
  by_cases h : k ∈ keysA l
  · rw [keysA_setA_of_mem v h]
    exact hnd
  · rw [setA_of_not_mem v h]
    have he : keysA (l ++ [(k, v)]) = keysA l ++ [k] := by simp [keysA]
    rw [he]
    simp only [List.nodup_append]
    refine ⟨hnd, List.nodup_singleton k, ?_⟩
    intro a ha hb
    simp only [List.mem_singleton] at hb
    subst hb
    exact h ha

/-! ## Characterisation of the pruning loop -/

theorem pruneLoop_general (snapshot : List Nat) (B : Nat) :
    ∀ (q : List Nat) (p : Nat), p ≤ B →
    pruneLoop snapshot B q p =
      (q.drop (min (B - p) snapshot.length), p + min (B - p) snapshot.length) := by
  induction snapshot with
  | nil =>
    intro q p _
    simp [pruneLoop]
  | cons x rest ih =>
    intro q p hp
    rw [pruneLoop]
    by_cases h : p = B
    · subst h
      simp
    · have hlt : p < B := lt_of_le_of_ne hp h
      rw [if_neg h, ih q.tail (p + 1) hlt]
      have hM : min (B - p) (x :: rest).length = min (B - (p + 1)) rest.length + 1 := by
        simp only [List.length_cons]
        omega
      rw [hM]
      have hdrop : q.tail.drop (min (B - (p + 1)) rest.length) =
          q.drop (min (B - (p + 1)) rest.length + 1) := by
        rw [← List.drop_one, List.drop_drop, Nat.add_comm]
      rw [hdrop]
      have harith : p + 1 + min (B - (p + 1)) rest.length =
          p + (min (B - (p + 1)) rest.length + 1) := by omega
      rw [harith]

theorem pruneLoop_spec (q : List Nat) (B : Nat) :
    pruneLoop q B q 0 = (q.drop (min B q.length), min B q.length) := by
  simpa using pruneLoop_general q B q 0 (Nat.zero_le B)

/-! ## Reduction lemmas for the pallet calls -/

theorem release_best_effort_fields (ctx : Ctx) (a : AccountId) (n : Nat) (s : PalletState) :
    (release_best_effort ctx a n s).1.bridges = s.bridges ∧
    (release_best_effort ctx a n s).1.laneToBridge = s.laneToBridge ∧
    (release_best_effort ctx a n s).1.inboundLanes = s.inboundLanes ∧
    (release_best_effort ctx a n s).1.outboundLanes = s.outboundLanes ∧
    (release_best_effort ctx a n s).1.events = s.events := by
  unfold release_best_effort
  split <;> simp

/-- The `Bridge` record stored by a successful `open_bridge`. -/
def openedBridge (ctx : Ctx) (locs : BridgeLocations) (lane : LaneId) (owner : AccountId) :
    Bridge :=
  { bridge_origin_relative_location := (xcmLatestVersion, locs.bridge_origin_relative_location)
    bridge_origin_universal_location := (xcmLatestVersion, locs.bridge_origin_universal_location)
    bridge_destination_universal_location :=
      (xcmLatestVersion, locs.bridge_destination_universal_location)
    state := BridgeState.Opened
    bridge_owner_account := owner
    reserve := ctx.bridgeDeposit
    lane_id := lane }

theorem open_bridge_success (ctx : Ctx) (rel : Location) (dest : VersionedInteriorLocation)
    (dC : InteriorLocation) (locs : BridgeLocations) (lane : LaneId) (owner : AccountId)
    (s : PalletState)
    (hdest : tryIntoLatestInterior dest = some dC)
    (hlocs : BridgeLocations.bridge_locations ctx.universalLocation rel dC ctx.bridgedNetwork =
      Except.ok locs)
    (hlane : locs.calculate_lane_id dest.1 = Except.ok lane)
    (hconv : ctx.convertLocation locs.bridge_origin_relative_location = some owner)
    (hfunds : ctx.bridgeDeposit ≤ (lookupA s.free owner).getD 0)
    (hbid : lookupA s.bridges locs.bridge_id = none)
    (hlto : lookupA s.laneToBridge lane = none)
    (hinl : lookupA s.inboundLanes lane = none)
    (houtl : lookupA s.outboundLanes lane = none) :
    open_bridge ctx (some rel) dest s = Except.ok
      { bridges := setA s.bridges locs.bridge_id (openedBridge ctx locs lane owner)
        laneToBridge := setA s.laneToBridge lane locs.bridge_id
        inboundLanes := setA s.inboundLanes lane LaneState.Opened
        outboundLanes := setA s.outboundLanes lane ⟨LaneState.Opened, []⟩
        free := setA s.free owner ((lookupA s.free owner).getD 0 - ctx.bridgeDeposit)
        held := setA s.held owner ((lookupA s.held owner).getD 0 + ctx.bridgeDeposit)
        events := s.events ++ [Event.BridgeOpened locs.bridge_id (some ctx.bridgeDeposit)
          locs.bridge_origin_universal_location locs.bridge_destination_universal_location
          lane] } := by
  have hnotlt : ¬(lookupA s.free owner).getD 0 < ctx.bridgeDeposit := Nat.not_lt.mpr hfunds
  simp only [open_bridge, hdest, hlocs, hlane, hconv, hold_deposit, if_neg hnotlt,
    hbid, hlto, hinl, houtl, create_inbound_lane, create_outbound_lane, openedBridge]

theorem close_bridge_unknown (ctx : Ctx) (rel : Location) (dest : VersionedInteriorLocation)
    (dC : InteriorLocation) (locs : BridgeLocations) (B : Nat) (s : PalletState)
    (hdest : tryIntoLatestInterior dest = some dC)
    (hlocs : BridgeLocations.bridge_locations ctx.universalLocation rel dC ctx.bridgedNetwork =
      Except.ok locs)
    (hb : lookupA s.bridges locs.bridge_id = none) :
    close_bridge ctx (some rel) dest B s = Except.error PalletError.UnknownBridge := by
  simp only [close_bridge, hdest, hlocs, hb]

theorem close_bridge_no_inbound (ctx : Ctx) (rel : Location) (dest : VersionedInteriorLocation)
    (dC : InteriorLocation) (locs : BridgeLocations) (b : Bridge) (B : Nat) (s : PalletState)
    (hdest : tryIntoLatestInterior dest = some dC)
    (hlocs : BridgeLocations.bridge_locations ctx.universalLocation rel dC ctx.bridgedNetwork =
      Except.ok locs)
    (hb : lookupA s.bridges locs.bridge_id = some b)
    (hin : lookupA s.inboundLanes b.lane_id = none) :
    close_bridge ctx (some rel) dest B s =
      Except.error (PalletError.LanesManager LanesManagerError.UnknownInboundLane) := by
  simp only [close_bridge, hdest, hlocs, hb, hin]

theorem close_bridge_no_outbound (ctx : Ctx) (rel : Location) (dest : VersionedInteriorLocation)
    (dC : InteriorLocation) (locs : BridgeLocations) (b : Bridge) (ist : LaneState) (B : Nat)
    (s : PalletState)
    (hdest : tryIntoLatestInterior dest = some dC)
    (hlocs : BridgeLocations.bridge_locations ctx.universalLocation rel dC ctx.bridgedNetwork =
      Except.ok locs)
    (hb : lookupA s.bridges locs.bridge_id = some b)
    (hin : lookupA s.inboundLanes b.lane_id = some ist)
    (hout : lookupA s.outboundLanes b.lane_id = none) :
    close_bridge ctx (some rel) dest B s =
      Except.error (PalletError.LanesManager LanesManagerError.UnknownOutboundLane) := by
  simp only [close_bridge, hdest, hlocs, hb, hin, hout]

theorem close_bridge_nonempty_queue (ctx : Ctx) (rel : Location) (dest : VersionedInteriorLocation)
    (dC : InteriorLocation) (locs : BridgeLocations) (b : Bridge) (ist : LaneState)
    (out : OutboundLaneData) (B : Nat) (s : PalletState)
    (hdest : tryIntoLatestInterior dest = some dC)
    (hlocs : BridgeLocations.bridge_locations ctx.universalLocation rel dC ctx.bridgedNetwork =
      Except.ok locs)
    (hb : lookupA s.bridges locs.bridge_id = some b)
    (hin : lookupA s.inboundLanes b.lane_id = some ist)
    (hout : lookupA s.outboundLanes b.lane_id = some out)
    (hB : B < out.queue.length) :
    close_bridge ctx (some rel) dest B s = Except.ok
      { s with
        bridges := setA s.bridges locs.bridge_id { b with state := BridgeState.Closed }
        inboundLanes := setA s.inboundLanes b.lane_id LaneState.Closed
        outboundLanes := setA s.outboundLanes b.lane_id ⟨LaneState.Closed, out.queue.drop B⟩
        events := s.events ++
          [Event.ClosingBridge locs.bridge_id b.lane_id B (out.queue.length - B)] } := by
  have hmin : min B out.queue.length = B := Nat.min_eq_left (le_of_lt hB)
  have hdrop : out.queue.drop B ≠ [] := by
    intro h
    have h1 : (out.queue.drop B).length = 0 := by rw [h]; rfl
    rw [List.length_drop] at h1
    omega
  simp only [close_bridge, hdest, hlocs, hb, hin, hout, pruneLoop_spec, hmin, ne_eq, hdrop,
    not_false_eq_true, if_true, List.length_drop]

/-- The post-state of the deleting branch of `close_bridge`: both lanes
purged, both map entries removed, the reserve released best-effort and
the `BridgePruned` event deposited. -/
def close_final_state (ctx : Ctx) (s : PalletState) (bid : BridgeId) (b : Bridge)
    (pruned : Nat) : PalletState :=
  let s3 : PalletState := { s with
    bridges := removeA s.bridges bid
    laneToBridge := removeA s.laneToBridge b.lane_id
    inboundLanes := removeA s.inboundLanes b.lane_id
    outboundLanes := removeA s.outboundLanes b.lane_id }
  let r := release_best_effort ctx b.bridge_owner_account b.reserve s3
  { r.1 with events := r.1.events ++ [Event.BridgePruned bid b.lane_id r.2 pruned] }

theorem close_bridge_final (ctx : Ctx) (rel : Location) (dest : VersionedInteriorLocation)
    (dC : InteriorLocation) (locs : BridgeLocations) (b : Bridge) (ist : LaneState)
    (out : OutboundLaneData) (B : Nat) (s : PalletState)
    (hdest : tryIntoLatestInterior dest = some dC)
    (hlocs : BridgeLocations.bridge_locations ctx.universalLocation rel dC ctx.bridgedNetwork =
      Except.ok locs)
    (hb : lookupA s.bridges locs.bridge_id = some b)
    (hin : lookupA s.inboundLanes b.lane_id = some ist)
    (hout : lookupA s.outboundLanes b.lane_id = some out)
    (hB : out.queue.length ≤ B) :
    close_bridge ctx (some rel) dest B s =
      Except.ok (close_final_state ctx s locs.bridge_id b out.queue.length) := by
  have hmin : min B out.queue.length = out.queue.length := Nat.min_eq_right hB
  have hdrop : out.queue.drop out.queue.length = [] := List.drop_length out.queue
  simp only [close_bridge, hdest, hlocs, hb, hin, hout, pruneLoop_spec, hmin, hdrop, ne_eq,
    not_true_eq_false, if_false, close_final_state, removeA_setA]

/-! ## The registry consistency invariant -/

/-- The per-bridge facts maintained for every stored `Bridges` entry:
the reverse index maps the bridge's lane back to its id, the three
stored locations are at the latest version, the key is the id
recomputed from the stored universal locations, and the stored owner
is the account recomputed from the stored relative location. -/
def goodBridge (ctx : Ctx) (ltb : List (LaneId × BridgeId)) (bid : BridgeId) (b : Bridge) :
    Prop :=
  lookupA ltb b.lane_id = some bid ∧
  b.bridge_origin_relative_location.1 = xcmLatestVersion ∧
  b.bridge_origin_universal_location.1 = xcmLatestVersion ∧
  b.bridge_destination_universal_location.1 = xcmLatestVersion ∧
  bid = BridgeId.new b.bridge_origin_universal_location.2
    b.bridge_destination_universal_location.2 ∧
  ctx.convertLocation b.bridge_origin_relative_location.2 = some b.bridge_owner_account

/-- The two-map consistency invariant of the bridge registry. -/
def InvMaps (ctx : Ctx) (br : List (BridgeId × Bridge)) (ltb : List (LaneId × BridgeId)) :
    Prop :=
  (keysA br).Nodup ∧
  (keysA ltb).Nodup ∧
  (∀ bid b, (bid, b) ∈ br → goodBridge ctx ltb bid b) ∧
  (∀ lane bid, (lane, bid) ∈ ltb → ∃ b, lookupA br bid = some b ∧ b.lane_id = lane) ∧
  ltb.length = br.length

/-- The consistency invariant of a pallet state. -/
def Inv (ctx : Ctx) (s : PalletState) : Prop :=
  InvMaps ctx s.bridges s.laneToBridge

theorem do_try_state_for_bridge_ok (ctx : Ctx) (s : PalletState) (bid : BridgeId) (b : Bridge)
    (h : goodBridge ctx s.laneToBridge bid b) :
    do_try_state_for_bridge ctx s bid b = Except.ok b.lane_id := by
  obtain ⟨h1, h2, h3, h4, h5, h6⟩ := h
  simp only [do_try_state_for_bridge, h1, tryAsLatestLocation, tryAsLatestInterior, h2, h3, h4,
    if_pos rfl]
  simp [h5, h6]

theorem laneIds_nodup (ctx : Ctx) (br : List (BridgeId × Bridge))
    (ltb : List (LaneId × BridgeId)) (hInv : InvMaps ctx br ltb) :
    (br.map (fun p => p.2.lane_id)).Nodup := by
  obtain ⟨hnd, _, hfwd, _, _⟩ := hInv
  have hbr : br.Nodup := List.Nodup.of_map Prod.fst hnd
  refine List.Nodup.map_on ?_ hbr
  intro p hp q hq hpq
  obtain ⟨bid1, b1⟩ := p
  obtain ⟨bid2, b2⟩ := q
  have g1 := (hfwd bid1 b1 hp).1
  have g2 := (hfwd bid2 b2 hq).1
  simp only at hpq
  rw [hpq] at g1
  rw [g1] at g2
  have hb12 : bid1 = bid2 := Option.some_injective _ g2
  subst hb12
  have hb : b1 = b2 := lookupA_entry_unique hnd hp hq
  rw [hb]

theorem collectLanes_acc (ctx : Ctx) (s : PalletState) :
    ∀ (l : List (BridgeId × Bridge)) (acc : List LaneId),
    (∀ p, p ∈ l → do_try_state_for_bridge ctx s p.1 p.2 = Except.ok p.2.lane_id) →
    (acc ++ l.map (fun p => p.2.lane_id)).Nodup →
    collectLanes ctx s l acc = Except.ok (acc ++ l.map (fun p => p.2.lane_id)) := by
  intro l
  induction l with
  | nil =>
    intro acc _ _
    simp [collectLanes]
  | cons p rest ih =>
    intro acc hok hnd
    have hnd1 : (acc ++ p.2.lane_id :: rest.map (fun p => p.2.lane_id)).Nodup := by
      simpa using hnd
    have hmid := List.nodup_middle.mp hnd1
    have hnm := (List.nodup_cons.mp hmid).1
    have hnotmem : p.2.lane_id ∉ acc := fun hx => hnm (List.mem_append_left _ hx)
    simp only [collectLanes, hok p (List.mem_cons_self _ _), insertLaneSet, if_neg hnotmem]
    have hres := ih (acc ++ [p.2.lane_id])
      (fun q hq => hok q (List.mem_cons_of_mem _ hq)) (by simpa using hnd)
    rw [hres]
    simp

theorem audit_of_inv (ctx : Ctx) (s : PalletState) (hInv : Inv ctx s) :
    do_try_state ctx s = Except.ok () := by
  obtain ⟨hnd1, hnd2, hfwd, hrev, hlen⟩ := hInv
  have hok : ∀ p, p ∈ s.bridges →
      do_try_state_for_bridge ctx s p.1 p.2 = Except.ok p.2.lane_id := by
    intro p hp
    obtain ⟨bid, b⟩ := p
    exact do_try_state_for_bridge_ok ctx s bid b (hfwd bid b hp)
  have hnodup : (([] : List LaneId) ++ s.bridges.map (fun p => p.2.lane_id)).Nodup := by
    simpa using laneIds_nodup ctx s.bridges s.laneToBridge ⟨hnd1, hnd2, hfwd, hrev, hlen⟩
  have hcoll := collectLanes_acc ctx s s.bridges [] hok hnodup
  simp only [List.nil_append] at hcoll
  have hlane_len : (s.bridges.map (fun p => p.2.lane_id)).length = s.bridges.length :=
    List.length_map _ _
  simp only [do_try_state, hcoll]
  have hc1 : ¬(s.bridges.map (fun p => p.2.lane_id)).length ≠ s.bridges.length := by
    omega
  have hc2 : ¬(s.bridges.map (fun p => p.2.lane_id)).length ≠ s.laneToBridge.length := by
    omega
  rw [if_neg hc1, if_neg hc2]

theorem lookupA_some_mem_keys {κ α : Type} [DecidableEq κ] {l : List (κ × α)} {k : κ} {v : α}
    (h : lookupA l k = some v) : k ∈ keysA l := by
  by_contra hn
  rw [← lookupA_eq_none] at hn
  rw [h] at hn
  exact Option.noConfusion hn

theorem invMaps_insert (ctx : Ctx) (br : List (BridgeId × Bridge))
    (ltb : List (LaneId × BridgeId)) (bid : BridgeId) (nb : Bridge)
    (hInv : InvMaps ctx br ltb)
    (hbid : lookupA br bid = none)
    (hlto : lookupA ltb nb.lane_id = none)
    (hv1 : nb.bridge_origin_relative_location.1 = xcmLatestVersion)
    (hv2 : nb.bridge_origin_universal_location.1 = xcmLatestVersion)
    (hv3 : nb.bridge_destination_universal_location.1 = xcmLatestVersion)
    (hid : bid = BridgeId.new nb.bridge_origin_universal_location.2
      nb.bridge_destination_universal_location.2)
    (hown : ctx.convertLocation nb.bridge_origin_relative_location.2 =
      some nb.bridge_owner_account) :
    InvMaps ctx (setA br bid nb) (setA ltb nb.lane_id bid) := by
  obtain ⟨hnd1, hnd2, hfwd, hrev, hlen⟩ := hInv
  have hbid_notmem : bid ∉ keysA br := (lookupA_eq_none br bid).mp hbid
  have hlane_notmem : nb.lane_id ∉ keysA ltb := (lookupA_eq_none ltb nb.lane_id).mp hlto
  refine ⟨keysA_nodup_setA bid nb hnd1, keysA_nodup_setA nb.lane_id bid hnd2, ?_, ?_, ?_⟩
  · intro bid' b' hmem
    rcases mem_setA_elim hmem with ⟨hb1, hb2⟩ | hold
    · subst hb1
      subst hb2
      exact ⟨lookupA_setA_self ltb b'.lane_id bid', hv1, hv2, hv3, hid, hown⟩
    · have hg := hfwd bid' b' hold
      have hne : b'.lane_id ≠ nb.lane_id := by
        intro he
        have := hg.1
        rw [he, hlto] at this
        exact Option.noConfusion this
      exact ⟨by rw [lookupA_setA_ne ltb nb.lane_id b'.lane_id bid hne]; exact hg.1,
        hg.2.1, hg.2.2.1, hg.2.2.2.1, hg.2.2.2.2.1, hg.2.2.2.2.2⟩
  · intro lane' bid' hmem
    rcases mem_setA_elim hmem with ⟨hb1, hb2⟩ | hold
    · subst hb1
      subst hb2
      exact ⟨nb, lookupA_setA_self br bid' nb, rfl⟩
    · obtain ⟨b', hb', hlane'⟩ := hrev lane' bid' hold
      have hne : bid' ≠ bid := by
        intro he
        rw [he, hbid] at hb'
        exact Option.noConfusion hb'
      exact ⟨b', by rw [lookupA_setA_ne br bid bid' nb hne]; exact hb', hlane'⟩
  · rw [setA_of_not_mem nb hbid_notmem, setA_of_not_mem bid hlane_notmem]
    simp [hlen]

theorem invMaps_update_state (ctx : Ctx) (br : List (BridgeId × Bridge))
    (ltb : List (LaneId × BridgeId)) (bid : BridgeId) (b : Bridge)
    (hInv : InvMaps ctx br ltb)
    (hb : lookupA br bid = some b) :
    InvMaps ctx (setA br bid { b with state := BridgeState.Closed }) ltb := by
  obtain ⟨hnd1, hnd2, hfwd, hrev, hlen⟩ := hInv
  have hmemk : bid ∈ keysA br := lookupA_some_mem_keys hb
  refine ⟨keysA_nodup_setA bid _ hnd1, hnd2, ?_, ?_, ?_⟩
  · intro bid' b' hmem
    rcases mem_setA_elim hmem with ⟨hb1, hb2⟩ | hold
    · subst hb1
      subst hb2
      have hg := hfwd bid' b (lookupA_mem hb)
      exact ⟨hg.1, hg.2.1, hg.2.2.1, hg.2.2.2.1, hg.2.2.2.2.1, hg.2.2.2.2.2⟩
    · exact hfwd bid' b' hold
  · intro lane' bid' hmem
    obtain ⟨b', hb', hlane'⟩ := hrev lane' bid' hmem
    by_cases he : bid' = bid
    · subst he
      refine ⟨{ b with state := BridgeState.Closed }, lookupA_setA_self br bid' _, ?_⟩
      have : b' = b := by
        rw [hb'] at hb
        exact Option.some_injective _ hb
      rw [← hlane', this]
    · exact ⟨b', by rw [lookupA_setA_ne br bid bid' _ he]; exact hb', hlane'⟩
  · rw [length_setA_of_mem _ hmemk]
    exact hlen

theorem invMaps_remove (ctx : Ctx) (br : List (BridgeId × Bridge))
    (ltb : List (LaneId × BridgeId)) (bid : BridgeId) (b : Bridge)
    (hInv : InvMaps ctx br ltb)
    (hb : lookupA br bid = some b) :
    InvMaps ctx (removeA br bid) (removeA ltb b.lane_id) := by
  obtain ⟨hnd1, hnd2, hfwd, hrev, hlen⟩ := hInv
  have hgb := hfwd bid b (lookupA_mem hb)
  have hmemk : bid ∈ keysA br := lookupA_some_mem_keys hb
  have hmeml : b.lane_id ∈ keysA ltb := lookupA_some_mem_keys hgb.1
  refine ⟨keysA_removeA_nodup bid hnd1, keysA_removeA_nodup b.lane_id hnd2, ?_, ?_, ?_⟩
  · intro bid' b' hmem
    obtain ⟨hold, hne⟩ := mem_removeA.mp hmem
    have hg := hfwd bid' b' hold
    have hlne : b'.lane_id ≠ b.lane_id := by
      intro he
      have h1 := hg.1
      rw [he, hgb.1] at h1
      exact hne (Option.some_injective _ h1).symm
    exact ⟨by rw [lookupA_removeA_ne ltb b.lane_id b'.lane_id hlne]; exact hg.1,
      hg.2.1, hg.2.2.1, hg.2.2.2.1, hg.2.2.2.2.1, hg.2.2.2.2.2⟩
  · intro lane' bid' hmem
    obtain ⟨hold, hne⟩ := mem_removeA.mp hmem
    obtain ⟨b', hb', hlane'⟩ := hrev lane' bid' hold
    have hbne : bid' ≠ bid := by
      intro he
      rw [he, hb] at hb'
      have hbb : b' = b := (Option.some_injective _ hb').symm
      rw [hbb] at hlane'
      exact hne hlane'.symm
    exact ⟨b', by rw [lookupA_removeA_ne br bid bid' hbne]; exact hb', hlane'⟩
  · have l1 := length_removeA hnd1 hmemk
    have l2 := length_removeA hnd2 hmeml
    omega

theorem hold_deposit_maps (a n : Nat) (s s1 : PalletState) (h : hold_deposit a n s = some s1) :
    s1.bridges = s.bridges ∧ s1.laneToBridge = s.laneToBridge ∧
    s1.inboundLanes = s.inboundLanes ∧ s1.outboundLanes = s.outboundLanes ∧
    s1.events = s.events := by
  unfold hold_deposit at h
  split at h
  · exact Option.noConfusion h
  · injection h with h
    subst h
    exact ⟨rfl, rfl, rfl, rfl, rfl⟩

theorem create_inbound_lane_ok (lane : LaneId) (s s1 : PalletState)
    (h : create_inbound_lane lane s = Except.ok s1) :
    lookupA s.inboundLanes lane = none ∧
    s1 = { s with inboundLanes := setA s.inboundLanes lane LaneState.Opened } := by
  unfold create_inbound_lane at h
  split at h
  · exact Except.noConfusion h
  next heq =>
    injection h with h
    subst h
    exact ⟨heq, rfl⟩

theorem create_outbound_lane_ok (lane : LaneId) (s s1 : PalletState)
    (h : create_outbound_lane lane s = Except.ok s1) :
    lookupA s.outboundLanes lane = none ∧
    s1 = { s with outboundLanes := setA s.outboundLanes lane ⟨LaneState.Opened, []⟩ } := by
  unfold create_outbound_lane at h
  split at h
  · exact Except.noConfusion h
  next heq =>
    injection h with h
    subst h
    exact ⟨heq, rfl⟩

theorem bridge_locations_wf {u : InteriorLocation} {rel : Location} {dC : InteriorLocation}
    {net : Nat} {locs : BridgeLocations}
    (h : BridgeLocations.bridge_locations u rel dC net = Except.ok locs) :
    locs.bridge_id = BridgeId.new locs.bridge_origin_universal_location
      locs.bridge_destination_universal_location := by
  unfold BridgeLocations.bridge_locations at h
  split at h
  · exact Except.noConfusion h
  · split at h
    · exact Except.noConfusion h
    · injection h with h
      subst h
      rfl

theorem calculate_lane_id_wf {locs : BridgeLocations} {v : Nat} {lane : LaneId}
    (h : locs.calculate_lane_id v = Except.ok lane) :
    lane = (locs.bridge_origin_universal_location, locs.bridge_destination_universal_location) := by
  unfold BridgeLocations.calculate_lane_id at h
  split at h
  · injection h with h
    exact h.symm
  · exact Except.noConfusion h

theorem open_bridge_ok_inversion (ctx : Ctx) (o : Option Location)
    (d : VersionedInteriorLocation) (s s' : PalletState)
    (h : open_bridge ctx o d s = Except.ok s') :
    ∃ rel dC locs lane owner,
      o = some rel ∧
      tryIntoLatestInterior d = some dC ∧
      BridgeLocations.bridge_locations ctx.universalLocation rel dC ctx.bridgedNetwork =
        Except.ok locs ∧
      locs.calculate_lane_id d.1 = Except.ok lane ∧
      ctx.convertLocation locs.bridge_origin_relative_location = some owner ∧
      lookupA s.bridges locs.bridge_id = none ∧
      lookupA s.laneToBridge lane = none ∧
      s'.bridges = setA s.bridges locs.bridge_id (openedBridge ctx locs lane owner) ∧
      s'.laneToBridge = setA s.laneToBridge lane locs.bridge_id := by
  unfold open_bridge at h
  split at h <;> try exact Except.noConfusion h
  rename_i rel
  split at h <;> try exact Except.noConfusion h
  rename_i dC hdest
  split at h <;> try exact Except.noConfusion h
  rename_i locs hlocs
  split at h <;> try exact Except.noConfusion h
  rename_i lane hlane
  split at h <;> try exact Except.noConfusion h
  rename_i owner hconv
  split at h <;> try exact Except.noConfusion h
  rename_i s1 hhold
  split at h <;> try exact Except.noConfusion h
  rename_i hbid
  simp only [] at h
  split at h <;> try exact Except.noConfusion h
  rename_i hlto
  split at h <;> try exact Except.noConfusion h
  rename_i s4 hcin
  split at h <;> try exact Except.noConfusion h
  rename_i s5 hcout
  injection h with h
  subst h
  obtain ⟨hm1, hm2, hm3, hm4, hm5⟩ := hold_deposit_maps _ _ _ _ hhold
  obtain ⟨hin_none, rfl⟩ := create_inbound_lane_ok _ _ _ hcin
  obtain ⟨hout_none, rfl⟩ := create_outbound_lane_ok _ _ _ hcout
  refine ⟨rel, dC, locs, lane, owner, rfl, hdest, hlocs, hlane, hconv, ?_, ?_, ?_, ?_⟩
  · rw [← hm1]; exact hbid
  · rw [← hm2]; exact hlto
  · simp [openedBridge, hm1]
  · simp [hm2]

theorem close_bridge_ok_inversion (ctx : Ctx) (o : Option Location)
    (d : VersionedInteriorLocation) (B : Nat) (s s' : PalletState)
    (h : close_bridge ctx o d B s = Except.ok s') :
    ∃ rel dC locs b,
      o = some rel ∧
      tryIntoLatestInterior d = some dC ∧
      BridgeLocations.bridge_locations ctx.universalLocation rel dC ctx.bridgedNetwork =
        Except.ok locs ∧
      lookupA s.bridges locs.bridge_id = some b ∧
      ((s'.bridges = setA s.bridges locs.bridge_id { b with state := BridgeState.Closed } ∧
        s'.laneToBridge = s.laneToBridge) ∨
       (s'.bridges = removeA s.bridges locs.bridge_id ∧
        s'.laneToBridge = removeA s.laneToBridge b.lane_id)) := by
  unfold close_bridge at h
  split at h <;> try exact Except.noConfusion h
  rename_i rel
  split at h <;> try exact Except.noConfusion h
  rename_i dC hdest
  split at h <;> try exact Except.noConfusion h
  rename_i locs hlocs
  split at h <;> try exact Except.noConfusion h
  rename_i b hb
  simp only [] at h
  split at h <;> try exact Except.noConfusion h
  rename_i ist hin
  split at h <;> try exact Except.noConfusion h
  rename_i out hout
  split at h
  · injection h with h
    subst h
    exact ⟨rel, dC, locs, b, rfl, hdest, hlocs, hb, Or.inl ⟨rfl, rfl⟩⟩
  · injection h with h
    subst h
    refine ⟨rel, dC, locs, b, rfl, hdest, hlocs, hb, Or.inr ⟨?_, ?_⟩⟩
    · have hf := release_best_effort_fields ctx b.bridge_owner_account b.reserve
        { bridges := removeA (setA s.bridges locs.bridge_id
            { b with state := BridgeState.Closed }) locs.bridge_id
          laneToBridge := removeA s.laneToBridge b.lane_id
          inboundLanes := removeA s.inboundLanes b.lane_id
          outboundLanes := removeA s.outboundLanes b.lane_id
          free := s.free
          held := s.held
          events := s.events }
      simp only [hf.1]
      rw [removeA_setA]
    · have hf := release_best_effort_fields ctx b.bridge_owner_account b.reserve
        { bridges := removeA (setA s.bridges locs.bridge_id
            { b with state := BridgeState.Closed }) locs.bridge_id
          laneToBridge := removeA s.laneToBridge b.lane_id
          inboundLanes := removeA s.inboundLanes b.lane_id
          outboundLanes := removeA s.outboundLanes b.lane_id
          free := s.free
          held := s.held
          events := s.events }
      simp only [hf.2.1]

theorem inv_open_bridge (ctx : Ctx) {o : Option Location} {d : VersionedInteriorLocation}
    {s s' : PalletState} (h : open_bridge ctx o d s = Except.ok s') (hInv : Inv ctx s) :
    Inv ctx s' := by
  obtain ⟨rel, dC, locs, lane, owner, ho, hdest, hlocs, hlane, hconv, hbid, hlto, hbr, hltb⟩ :=
    open_bridge_ok_inversion ctx o d s s' h
  unfold Inv
  rw [hbr, hltb]
  exact invMaps_insert ctx s.bridges s.laneToBridge locs.bridge_id
    (openedBridge ctx locs lane owner) hInv hbid hlto rfl rfl rfl
    (bridge_locations_wf hlocs) hconv

theorem inv_close_bridge (ctx : Ctx) {o : Option Location} {d : VersionedInteriorLocation}
    {B : Nat} {s s' : PalletState} (h : close_bridge ctx o d B s = Except.ok s')
    (hInv : Inv ctx s) : Inv ctx s' := by
  obtain ⟨rel, dC, locs, b, ho, hdest, hlocs, hb, hcase⟩ :=
    close_bridge_ok_inversion ctx o d B s s' h
  rcases hcase with ⟨hbr, hltb⟩ | ⟨hbr, hltb⟩
  · unfold Inv
    rw [hbr, hltb]
    exact invMaps_update_state ctx s.bridges s.laneToBridge locs.bridge_id b hInv hb
  · unfold Inv
    rw [hbr, hltb]
    exact invMaps_remove ctx s.bridges s.laneToBridge locs.bridge_id b hInv hb

theorem inv_step (ctx : Ctx) {s s' : PalletState} (h : SuccessfulCall ctx s s')
    (hInv : Inv ctx s) : Inv ctx s' := by
  cases h with
  | openCall o d s s2 hok => exact inv_open_bridge ctx hok hInv
  | closeCall o d n s s2 hok => exact inv_close_bridge ctx hok hInv

theorem inv_reachable (ctx : Ctx) {s0 s : PalletState} (h : Reachable ctx s0 s)
    (h0 : Inv ctx s0) : Inv ctx s := by
  induction h with
  | refl => exact h0
  | tail _ hcall ih => exact inv_step ctx hcall ih

theorem inv_of_empty_registry (ctx : Ctx) {s : PalletState} (h : emptyRegistry s) :
    Inv ctx s := by
  obtain ⟨h1, h2⟩ := h
  refine ⟨?_, ?_, ?_, ?_, ?_⟩
  · rw [h1]; simp [keysA]
  · rw [h2]; simp [keysA]
  · intro bid b hmem; rw [h1] at hmem; simp at hmem
  · intro lane bid hmem; rw [h2] at hmem; simp at hmem
  · rw [h1, h2]
    rfl

/-! ## Genesis build facts -/

/-- The `Bridge` record stored for a genesis-seeded bridge: state
`Opened` and zero reserve (no deposit is held at genesis). -/
def genesisBridge (locs : BridgeLocations) (lane : LaneId) (owner : AccountId) : Bridge :=
  { bridge_origin_relative_location := (xcmLatestVersion, locs.bridge_origin_relative_location)
    bridge_origin_universal_location := (xcmLatestVersion, locs.bridge_origin_universal_location)
    bridge_destination_universal_location :=
      (xcmLatestVersion, locs.bridge_destination_universal_location)
    state := BridgeState.Opened
    bridge_owner_account := owner
    reserve := 0
    lane_id := lane }

theorem genesis_build_bridge_ok_inversion (ctx : Ctx) (p : Location × InteriorLocation)
    (s s1 : PalletState) (h : genesis_build_bridge ctx p s = Except.ok s1) :
    ∃ locs lane owner,
      BridgeLocations.bridge_locations ctx.universalLocation p.1 p.2 ctx.bridgedNetwork =
        Except.ok locs ∧
      locs.calculate_lane_id xcmLatestVersion = Except.ok lane ∧
      ctx.convertLocation locs.bridge_origin_relative_location = some owner ∧
      lookupA s.inboundLanes lane = none ∧
      lookupA s.outboundLanes lane = none ∧
      s1 = { s with
        bridges := setA s.bridges locs.bridge_id (genesisBridge locs lane owner)
        laneToBridge := setA s.laneToBridge lane locs.bridge_id
        inboundLanes := setA s.inboundLanes lane LaneState.Opened
        outboundLanes := setA s.outboundLanes lane ⟨LaneState.Opened, []⟩ } := by
  unfold genesis_build_bridge at h
  split at h <;> try exact Except.noConfusion h
  rename_i locs hlocs
  split at h <;> try exact Except.noConfusion h
  rename_i lane hlane
  split at h <;> try exact Except.noConfusion h
  rename_i owner hconv
  simp only [] at h
  split at h <;> try exact Except.noConfusion h
  rename_i s2 hcin
  split at h <;> try exact Except.noConfusion h
  rename_i s3 hcout
  injection h with h
  subst h
  obtain ⟨hin_none, rfl⟩ := create_inbound_lane_ok _ _ _ hcin
  obtain ⟨hout_none, rfl⟩ := create_outbound_lane_ok _ _ _ hcout
  exact ⟨locs, lane, owner, hlocs, hlane, hconv, hin_none, hout_none, by simp [genesisBridge]⟩

/-- Entries present in the maps stay present (used to carry per-pair
genesis facts through later genesis iterations). -/
def PreservedEntries (s s' : PalletState) : Prop :=
  (∀ bid b, lookupA s.bridges bid = some b → lookupA s'.bridges bid = some b) ∧
  (∀ lane bid, lookupA s.laneToBridge lane = some bid →
    lookupA s'.laneToBridge lane = some bid) ∧
  (∀ lane v, lookupA s.inboundLanes lane = some v → lookupA s'.inboundLanes lane = some v) ∧
  (∀ lane v, lookupA s.outboundLanes lane = some v → lookupA s'.outboundLanes lane = some v)

theorem preservedEntries_refl (s : PalletState) : PreservedEntries s s :=
  ⟨fun _ _ h => h, fun _ _ h => h, fun _ _ h => h, fun _ _ h => h⟩

theorem preservedEntries_trans {s1 s2 s3 : PalletState} (h1 : PreservedEntries s1 s2)
    (h2 : PreservedEntries s2 s3) : PreservedEntries s1 s3 :=
  ⟨fun k v h => h2.1 k v (h1.1 k v h),
   fun k v h => h2.2.1 k v (h1.2.1 k v h),
   fun k v h => h2.2.2.1 k v (h1.2.2.1 k v h),
   fun k v h => h2.2.2.2 k v (h1.2.2.2 k v h)⟩

/-- The facts established by the genesis build for one configured
`(origin, destination)` pair. -/
def perPairFacts (ctx : Ctx) (p : Location × InteriorLocation) (s : PalletState) : Prop :=
  ∃ locs lane owner,
    BridgeLocations.bridge_locations ctx.universalLocation p.1 p.2 ctx.bridgedNetwork =
      Except.ok locs ∧
    locs.calculate_lane_id xcmLatestVersion = Except.ok lane ∧
    ctx.convertLocation locs.bridge_origin_relative_location = some owner ∧
    lookupA s.bridges locs.bridge_id = some (genesisBridge locs lane owner) ∧
    lookupA s.laneToBridge lane = some locs.bridge_id ∧
    lookupA s.inboundLanes lane = some LaneState.Opened ∧
    lookupA s.outboundLanes lane = some ⟨LaneState.Opened, []⟩

theorem perPairFacts_mono (ctx : Ctx) (p : Location × InteriorLocation) {s s' : PalletState}
    (h : perPairFacts ctx p s) (hp : PreservedEntries s s') : perPairFacts ctx p s' := by
  obtain ⟨locs, lane, owner, h1, h2, h3, h4, h5, h6, h7⟩ := h
  exact ⟨locs, lane, owner, h1, h2, h3, hp.1 _ _ h4, hp.2.1 _ _ h5, hp.2.2.1 _ _ h6,
    hp.2.2.2 _ _ h7⟩

/-- The strengthened invariant maintained along the genesis build: the
registry invariant, plus: every stored bridge's lane is the component
pair of its id and both its lanes exist, and every existing lane is
owned by the bridge whose id is the lane's component pair. -/
def GenInv (ctx : Ctx) (s : PalletState) : Prop :=
  Inv ctx s ∧
  (∀ bid b, (bid, b) ∈ s.bridges → b.lane_id = (bid.1, bid.2) ∧
    (lookupA s.inboundLanes b.lane_id).isSome ∧ (lookupA s.outboundLanes b.lane_id).isSome) ∧
  (∀ lane st, (lane, st) ∈ s.inboundLanes →
    ∃ b, lookupA s.bridges (lane.1, lane.2) = some b ∧ b.lane_id = lane) ∧
  (∀ lane ld, (lane, ld) ∈ s.outboundLanes →
    ∃ b, lookupA s.bridges (lane.1, lane.2) = some b ∧ b.lane_id = lane)

theorem genesis_step_facts (ctx : Ctx) (p : Location × InteriorLocation) (s s1 : PalletState)
    (h : genesis_build_bridge ctx p s = Except.ok s1) (hg : GenInv ctx s) :
    GenInv ctx s1 ∧ s1.free = s.free ∧ s1.held = s.held ∧
    PreservedEntries s s1 ∧ perPairFacts ctx p s1 := by
  obtain ⟨hInv, hbr_facts, hin_rev, hout_rev⟩ := hg
  obtain ⟨locs, lane, owner, hlocs, hlane, hconv, hin_none, hout_none, rfl⟩ :=
    genesis_build_bridge_ok_inversion ctx p s s1 h
  have hlane_eq := calculate_lane_id_wf hlane
  have hbid_eq : locs.bridge_id =
      (locs.bridge_origin_universal_location, locs.bridge_destination_universal_location) :=
    bridge_locations_wf hlocs
  have hbl : locs.bridge_id = lane := by rw [hbid_eq, hlane_eq]
  have hbid_none : lookupA s.bridges locs.bridge_id = none := by
    cases hcb : lookupA s.bridges locs.bridge_id with
    | none => rfl
    | some b =>
      have hfacts := hbr_facts locs.bridge_id b (lookupA_mem hcb)
      have hlid : b.lane_id = lane := by rw [hfacts.1, Prod.mk.eta, hbl]
      have hsome := hfacts.2.1
      rw [hlid, hin_none] at hsome
      exact absurd hsome (by simp)
  have hlto_none : lookupA s.laneToBridge lane = none := by
    cases hcl : lookupA s.laneToBridge lane with
    | none => rfl
    | some bid' =>
      obtain ⟨b', hb', hlid'⟩ := hInv.2.2.2.1 lane bid' (lookupA_mem hcl)
      have hfacts := hbr_facts bid' b' (lookupA_mem hb')
      have hsome := hfacts.2.1
      rw [hlid', hin_none] at hsome
      exact absurd hsome (by simp)
  refine ⟨⟨?_, ?_, ?_, ?_⟩, rfl, rfl, ⟨?_, ?_, ?_, ?_⟩, ?_⟩
  · -- Inv
    exact invMaps_insert ctx s.bridges s.laneToBridge locs.bridge_id
      (genesisBridge locs lane owner) hInv hbid_none hlto_none rfl rfl rfl
      (bridge_locations_wf hlocs) hconv
  · -- bridge facts
    intro bid' b' hmem
    rcases mem_setA_elim hmem with ⟨hb1, hb2⟩ | hold
    · subst hb1
      subst hb2
      refine ⟨?_, ?_, ?_⟩
      · show lane = (locs.bridge_id.1, locs.bridge_id.2)
        rw [Prod.mk.eta, hbl]
      · show (lookupA (setA s.inboundLanes lane LaneState.Opened)
          (genesisBridge locs lane owner).lane_id).isSome
        rw [show (genesisBridge locs lane owner).lane_id = lane from rfl,
          lookupA_setA_self]
        rfl
      · show (lookupA (setA s.outboundLanes lane ⟨LaneState.Opened, []⟩)
          (genesisBridge locs lane owner).lane_id).isSome
        rw [show (genesisBridge locs lane owner).lane_id = lane from rfl,
          lookupA_setA_self]
        rfl
    · have hfacts := hbr_facts bid' b' hold
      refine ⟨hfacts.1, ?_, ?_⟩
      · by_cases hcase : b'.lane_id = lane
        · rw [hcase, lookupA_setA_self]
          rfl
        · rw [lookupA_setA_ne _ _ _ _ hcase]
          exact hfacts.2.1
      · by_cases hcase : b'.lane_id = lane
        · rw [hcase, lookupA_setA_self]
          rfl
        · rw [lookupA_setA_ne _ _ _ _ hcase]
          exact hfacts.2.2
  · -- inbound reverse
    intro lane' st' hmem
    rcases mem_setA_elim hmem with ⟨hb1, _⟩ | hold
    · subst hb1
      refine ⟨genesisBridge locs lane' owner, ?_, rfl⟩
      show lookupA (setA s.bridges locs.bridge_id (genesisBridge locs lane' owner))
        (lane'.1, lane'.2) = _
      rw [Prod.mk.eta, ← hbl, lookupA_setA_self]
    · obtain ⟨b', hb', hl'⟩ := hin_rev lane' st' hold
      have hkne : (lane'.1, lane'.2) ≠ locs.bridge_id := by
        intro he
        rw [he, hbid_none] at hb'
        exact Option.noConfusion hb'
      exact ⟨b', by rw [lookupA_setA_ne _ _ _ _ hkne]; exact hb', hl'⟩
  · -- outbound reverse
    intro lane' ld' hmem
    rcases mem_setA_elim hmem with ⟨hb1, _⟩ | hold
    · subst hb1
      refine ⟨genesisBridge locs lane' owner, ?_, rfl⟩
      show lookupA (setA s.bridges locs.bridge_id (genesisBridge locs lane' owner))
        (lane'.1, lane'.2) = _
      rw [Prod.mk.eta, ← hbl, lookupA_setA_self]
    · obtain ⟨b', hb', hl'⟩ := hout_rev lane' ld' hold
      have hkne : (lane'.1, lane'.2) ≠ locs.bridge_id := by
        intro he
        rw [he, hbid_none] at hb'
        exact Option.noConfusion hb'
      exact ⟨b', by rw [lookupA_setA_ne _ _ _ _ hkne]; exact hb', hl'⟩
  · -- bridges preserved
    intro bid' b' hb'
    have hkne : bid' ≠ locs.bridge_id := by
      intro he
      rw [he, hbid_none] at hb'
      exact Option.noConfusion hb'
    show lookupA (setA s.bridges locs.bridge_id (genesisBridge locs lane owner)) bid' = some b'
    rw [lookupA_setA_ne _ _ _ _ hkne]
    exact hb'
  · -- laneToBridge preserved
    intro lane' bid' hb'
    have hkne : lane' ≠ lane := by
      intro he
      rw [he, hlto_none] at hb'
      exact Option.noConfusion hb'
    show lookupA (setA s.laneToBridge lane locs.bridge_id) lane' = some bid'
    rw [lookupA_setA_ne _ _ _ _ hkne]
    exact hb'
  · -- inbound lanes preserved
    intro lane' v' hb'
    have hkne : lane' ≠ lane := by
      intro he
      rw [he, hin_none] at hb'
      exact Option.noConfusion hb'
    show lookupA (setA s.inboundLanes lane LaneState.Opened) lane' = some v'
    rw [lookupA_setA_ne _ _ _ _ hkne]
    exact hb'
  · -- outbound lanes preserved
    intro lane' v' hb'
    have hkne : lane' ≠ lane := by
      intro he
      rw [he, hout_none] at hb'
      exact Option.noConfusion hb'
    show lookupA (setA s.outboundLanes lane ⟨LaneState.Opened, []⟩) lane' = some v'
    rw [lookupA_setA_ne _ _ _ _ hkne]
    exact hb'
  · -- per-pair facts
    refine ⟨locs, lane, owner, hlocs, hlane, hconv, ?_, ?_, ?_, ?_⟩
    · show lookupA (setA s.bridges locs.bridge_id (genesisBridge locs lane owner))
        locs.bridge_id = _
      rw [lookupA_setA_self]
    · show lookupA (setA s.laneToBridge lane locs.bridge_id) lane = _
      rw [lookupA_setA_self]
    · show lookupA (setA s.inboundLanes lane LaneState.Opened) lane = _
      rw [lookupA_setA_self]
    · show lookupA (setA s.outboundLanes lane ⟨LaneState.Opened, []⟩) lane = _
      rw [lookupA_setA_self]

theorem genesis_build_facts (ctx : Ctx) :
    ∀ (cfg : List (Location × InteriorLocation)) (s s' : PalletState),
    genesis_build ctx cfg s = Except.ok s' → GenInv ctx s →
    GenInv ctx s' ∧ s'.free = s.free ∧ s'.held = s.held ∧ PreservedEntries s s' ∧
    ∀ p, p ∈ cfg → perPairFacts ctx p s' := by
  intro cfg
  induction cfg with
  | nil =>
    intro s s' h hg
    unfold genesis_build at h
    injection h with h
    subst h
    exact ⟨hg, rfl, rfl, preservedEntries_refl s, fun p hp => absurd hp (List.not_mem_nil p)⟩
  | cons p rest ih =>
    intro s s' h hg
    unfold genesis_build at h
    split at h
    · exact Except.noConfusion h
    next s1 heq =>
      obtain ⟨hg1, hf1, hh1, hp1, hpair1⟩ := genesis_step_facts ctx p s s1 heq hg
      obtain ⟨hg2, hf2, hh2, hp2, hpair2⟩ := ih s1 s' h hg1
      refine ⟨hg2, hf2.trans hf1, hh2.trans hh1, preservedEntries_trans hp1 hp2, ?_⟩
      intro q hq
      rcases List.mem_cons.mp hq with hq1 | hq1
      · subst hq1
        exact perPairFacts_mono ctx q hpair1 hp2
      · exact hpair2 q hq1

theorem genInv_of_empty (ctx : Ctx) {s : PalletState} (h1 : s.bridges = [])
    (h2 : s.laneToBridge = []) (h3 : s.inboundLanes = []) (h4 : s.outboundLanes = []) :
    GenInv ctx s := by
  refine ⟨inv_of_empty_registry ctx ⟨h1, h2⟩, ?_, ?_, ?_⟩
  · intro bid b hmem
    rw [h1] at hmem
    simp at hmem
  · intro lane st hmem
    rw [h3] at hmem
    simp at hmem
  · intro lane ld hmem
    rw [h4] at hmem
    simp at hmem

theorem inv_genesis_seeded (ctx : Ctx) {s : PalletState} (h : genesisSeeded ctx s) :
    Inv ctx s := by
  obtain ⟨cfg, s0, ⟨⟨hb, hl⟩, hin, hout⟩, hbuild⟩ := h
  exact (genesis_build_facts ctx cfg s0 s hbuild (genInv_of_empty ctx hb hl hin hout)).1.1

/-! ## Drain state predicates for the close protocol -/

/-- Mid-drain shape after `k` messages of the original queue `q` have
been pruned: the bridge is still registered (with its lane, owner and
reserve intact), both lanes exist, the remaining outbound queue is the
suffix `q.drop k` (so removal was strictly oldest-first), and the
reverse index and the escrow are untouched. -/
def MidDrain (s0 : PalletState) (bid : BridgeId) (b : Bridge) (q : List Nat)
    (t : PalletState) (k : Nat) : Prop :=
  (∃ b', lookupA t.bridges bid = some b' ∧ b'.lane_id = b.lane_id ∧
    b'.bridge_owner_account = b.bridge_owner_account ∧ b'.reserve = b.reserve) ∧
  (∃ st, lookupA t.inboundLanes b.lane_id = some st) ∧
  (∃ ost, lookupA t.outboundLanes b.lane_id = some ⟨ost, q.drop k⟩) ∧
  t.laneToBridge = s0.laneToBridge ∧ t.free = s0.free ∧ t.held = s0.held

/-- Fully drained shape: the bridge entry, the reverse-index entry and
both lanes are gone and the full reserve has moved from the owner's
held balance back to the owner's free balance. -/
def Drained (s0 : PalletState) (bid : BridgeId) (b : Bridge) (t : PalletState) : Prop :=
  lookupA t.bridges bid = none ∧
  lookupA t.laneToBridge b.lane_id = none ∧
  lookupA t.inboundLanes b.lane_id = none ∧
  lookupA t.outboundLanes b.lane_id = none ∧
  t.free = setA s0.free b.bridge_owner_account
    ((lookupA s0.free b.bridge_owner_account).getD 0 + b.reserve) ∧
  t.held = setA s0.held b.bridge_owner_account
    ((lookupA s0.held b.bridge_owner_account).getD 0 - b.reserve)

theorem close_step_nonempty (ctx : Ctx) (rel : Location) (dest : VersionedInteriorLocation)
    (dC : InteriorLocation) (locs : BridgeLocations) (b : Bridge) (q : List Nat) (B k : Nat)
    (s0 t : PalletState)
    (hdest : tryIntoLatestInterior dest = some dC)
    (hlocs : BridgeLocations.bridge_locations ctx.universalLocation rel dC ctx.bridgedNetwork =
      Except.ok locs)
    (hmid : MidDrain s0 locs.bridge_id b q t k)
    (hlt : B < (q.drop k).length) :
    MidDrain s0 locs.bridge_id b q (close_bridge_call ctx (some rel) dest B t).1 (k + B) := by
  obtain ⟨⟨b', hb', hlane', howner', hres'⟩, ⟨st, hst⟩, ⟨ost, host⟩, hltb, hfree, hheld⟩ := hmid
  have hout' : lookupA t.outboundLanes b'.lane_id = some ⟨ost, q.drop k⟩ := by
    rw [hlane']
    exact host
  have hin' : lookupA t.inboundLanes b'.lane_id = some st := by
    rw [hlane']
    exact hst
  have hcall := close_bridge_nonempty_queue ctx rel dest dC locs b' st ⟨ost, q.drop k⟩ B t
    hdest hlocs hb' hin' hout' hlt
  rw [close_bridge_call, hcall]
  refine ⟨⟨{ b' with state := BridgeState.Closed }, ?_, hlane', howner', hres'⟩,
    ⟨LaneState.Closed, ?_⟩, ⟨LaneState.Closed, ?_⟩, ?_, ?_, ?_⟩
  · exact lookupA_setA_self t.bridges locs.bridge_id _
  · rw [← hlane']
    exact lookupA_setA_self t.inboundLanes b'.lane_id _
  · rw [← hlane']
    have hq : (q.drop k).drop B = q.drop (k + B) := by
      rw [List.drop_drop]
      try rw [Nat.add_comm]
    rw [← hq]
    exact lookupA_setA_self t.outboundLanes b'.lane_id _
  · exact hltb
  · exact hfree
  · exact hheld

theorem close_step_final (ctx : Ctx) (rel : Location) (dest : VersionedInteriorLocation)
    (dC : InteriorLocation) (locs : BridgeLocations) (b : Bridge) (q : List Nat) (B k : Nat)
    (s0 t : PalletState)
    (hdest : tryIntoLatestInterior dest = some dC)
    (hlocs : BridgeLocations.bridge_locations ctx.universalLocation rel dC ctx.bridgedNetwork =
      Except.ok locs)
    (hmid : MidDrain s0 locs.bridge_id b q t k)
    (hle : (q.drop k).length ≤ B)
    (hfail : ctx.releaseFails b.bridge_owner_account b.reserve = false)
    (hheld0 : b.reserve ≤ (lookupA s0.held b.bridge_owner_account).getD 0) :
    Drained s0 locs.bridge_id b (close_bridge_call ctx (some rel) dest B t).1 := by
  obtain ⟨⟨b', hb', hlane', howner', hres'⟩, ⟨st, hst⟩, ⟨ost, host⟩, hltb, hfree, hheld⟩ := hmid
  have hout' : lookupA t.outboundLanes b'.lane_id = some ⟨ost, q.drop k⟩ := by
    rw [hlane']
    exact host
  have hin' : lookupA t.inboundLanes b'.lane_id = some st := by
    rw [hlane']
    exact hst
  have hcall := close_bridge_final ctx rel dest dC locs b' st ⟨ost, q.drop k⟩ B t
    hdest hlocs hb' hin' hout' hle
  rw [close_bridge_call, hcall]
  show Drained s0 locs.bridge_id b (close_final_state ctx t locs.bridge_id b'
    (q.drop k).length)
  simp only [close_final_state]
  have hrel : release_best_effort ctx b'.bridge_owner_account b'.reserve
      { t with
        bridges := removeA t.bridges locs.bridge_id
        laneToBridge := removeA t.laneToBridge b'.lane_id
        inboundLanes := removeA t.inboundLanes b'.lane_id
        outboundLanes := removeA t.outboundLanes b'.lane_id } =
      ({ t with
          bridges := removeA t.bridges locs.bridge_id
          laneToBridge := removeA t.laneToBridge b'.lane_id
          inboundLanes := removeA t.inboundLanes b'.lane_id
          outboundLanes := removeA t.outboundLanes b'.lane_id
          held := setA t.held b.bridge_owner_account
            ((lookupA t.held b.bridge_owner_account).getD 0 - b.reserve)
          free := setA t.free b.bridge_owner_account
            ((lookupA t.free b.bridge_owner_account).getD 0 + b.reserve) },
        some b.reserve) := by
    rw [release_best_effort, howner', hres', hfail]
    have hmin : min b.reserve ((lookupA t.held b.bridge_owner_account).getD 0) = b.reserve := by
      rw [hheld]
      exact Nat.min_eq_left hheld0
    simp only [Bool.false_eq_true, if_false, hmin]
  rw [hrel]
  refine ⟨?_, ?_, ?_, ?_, ?_, ?_⟩
  · exact lookupA_removeA_self t.bridges locs.bridge_id
  · rw [← hlane']
    exact lookupA_removeA_self t.laneToBridge b'.lane_id
  · rw [← hlane']
    exact lookupA_removeA_self t.inboundLanes b'.lane_id
  · rw [← hlane']
    exact lookupA_removeA_self t.outboundLanes b'.lane_id
  · rw [hfree]
  · rw [hheld]

/-- `j` repeated dispatches of `close_bridge` with the same arguments
(the caller-driven incremental close protocol). -/
def close_calls (ctx : Ctx) (o : Option Location) (d : VersionedInteriorLocation) (B : Nat) :
    Nat → PalletState → PalletState
  | 0, s => s
  | k + 1, s => (close_bridge_call ctx o d B (close_calls ctx o d B k s)).1

theorem close_calls_mid (ctx : Ctx) (rel : Location) (dest : VersionedInteriorLocation)
    (dC : InteriorLocation) (locs : BridgeLocations) (b : Bridge) (ist ost : LaneState)
    (q : List Nat) (B : Nat) (s : PalletState)
    (hdest : tryIntoLatestInterior dest = some dC)
    (hlocs : BridgeLocations.bridge_locations ctx.universalLocation rel dC ctx.bridgedNetwork =
      Except.ok locs)
    (hb : lookupA s.bridges locs.bridge_id = some b)
    (hin : lookupA s.inboundLanes b.lane_id = some ist)
    (hout : lookupA s.outboundLanes b.lane_id = some ⟨ost, q⟩)
    (hB : 0 < B) :
    ∀ j, (j * B < q.length ∨ j = 0) →
      MidDrain s locs.bridge_id b q (close_calls ctx (some rel) dest B j s) (j * B) := by
  intro j
  induction j with
  | zero =>
    intro _
    refine ⟨⟨b, hb, rfl, rfl, rfl⟩, ⟨ist, hin⟩, ⟨ost, ?_⟩, rfl, rfl, rfl⟩
    rw [Nat.zero_mul, List.drop_zero]
    exact hout
  | succ k ih =>
    intro hj
    rcases hj with hj | hj
    · have hsm : (k + 1) * B = k * B + B := Nat.succ_mul k B
      have hk' : k * B < q.length := by omega
      have hmidk := ih (Or.inl hk')
      have hlen : (q.drop (k * B)).length = q.length - k * B := List.length_drop _ _
      have hlt : B < (q.drop (k * B)).length := by
        rw [hlen]
        omega
      have hstep := close_step_nonempty ctx rel dest dC locs b q B (k * B) s
        (close_calls ctx (some rel) dest B k s) hdest hlocs hmidk hlt
      rw [close_calls, hsm]
      exact hstep
    · exact absurd hj (Nat.succ_ne_zero k)

theorem close_calls_drained (ctx : Ctx) (rel : Location) (dest : VersionedInteriorLocation)
    (dC : InteriorLocation) (locs : BridgeLocations) (b : Bridge) (ist ost : LaneState)
    (q : List Nat) (B : Nat) (s : PalletState)
    (hdest : tryIntoLatestInterior dest = some dC)
    (hlocs : BridgeLocations.bridge_locations ctx.universalLocation rel dC ctx.bridgedNetwork =
      Except.ok locs)
    (hb : lookupA s.bridges locs.bridge_id = some b)
    (hin : lookupA s.inboundLanes b.lane_id = some ist)
    (hout : lookupA s.outboundLanes b.lane_id = some ⟨ost, q⟩)
    (hB : 0 < B)
    (hfail : ctx.releaseFails b.bridge_owner_account b.reserve = false)
    (hheld0 : b.reserve ≤ (lookupA s.held b.bridge_owner_account).getD 0) :
    ∀ j, 1 ≤ j → q.length ≤ j * B →
      Drained s locs.bridge_id b (close_calls ctx (some rel) dest B j s) := by
  intro j
  induction j with
  | zero =>
    intro h1 _
    exact absurd h1 (by omega)
  | succ k ih =>
    intro _ hlen
    have hsm : (k + 1) * B = k * B + B := Nat.succ_mul k B
    by_cases hc : q.length ≤ k * B ∧ 1 ≤ k
    · have hd := ih hc.2 hc.1
      have herr := close_bridge_unknown ctx rel dest dC locs B
        (close_calls ctx (some rel) dest B k s) hdest hlocs hd.1
      rw [close_calls, close_bridge_call, herr]
      exact hd
    · have hk : k * B < q.length ∨ k = 0 := by
        by_cases h1 : k * B < q.length
        · exact Or.inl h1
        · right
          by_contra hk0
          exact hc ⟨Nat.le_of_not_lt h1, Nat.one_le_iff_ne_zero.mpr hk0⟩
      have hmid := close_calls_mid ctx rel dest dC locs b ist ost q B s
        hdest hlocs hb hin hout hB k hk
      have hdl : (q.drop (k * B)).length = q.length - k * B := List.length_drop _ _
      have hle : (q.drop (k * B)).length ≤ B := by
        rw [hdl]
        omega
      rw [close_calls]
      exact close_step_final ctx rel dest dC locs b q B (k * B) s
        (close_calls ctx (some rel) dest B k s) hdest hlocs hmid hle hfail hheld0

/-! ## Concrete sample fixtures used by the witnesses -/

/-- A sample runtime configuration: local network 0, bridged network 1,
deposit 10, identity account conversion, reliable escrow release. -/
def sampleCtx : Ctx :=
  ⟨⟨0, 0⟩, 1, 10, fun l => some l, fun _ _ => false⟩

/-- A sample caller origin (relative location 7). -/
def sampleOrigin : Option Location := some 7

/-- A sample versioned destination inside the bridged network. -/
def sampleDest : VersionedInteriorLocation := (5, ⟨1, 99⟩)

/-- The canonical form of `sampleDest`. -/
def sampleDC : InteriorLocation := ⟨1, 99⟩

/-- A state funding the sample owner with exactly one deposit. -/
def sampleState0 : PalletState := { emptyState with free := [(7, 10)] }

/-- A state funding the sample owner with two and a half deposits. -/
def sampleState25 : PalletState := { emptyState with free := [(7, 25)] }

/-- The state after opening the sample bridge from `sampleState25`. -/
def sampleOpened : PalletState :=
  (open_bridge_call sampleCtx sampleOrigin sampleDest sampleState25).1

/-- The universal location of the sample origin. -/
def sampleOU : InteriorLocation := ⟨0, Nat.pair 0 7⟩

/-- The resolved locations of the sample bridge. -/
def sampleLocs : BridgeLocations := ⟨7, sampleOU, sampleDC, (sampleOU, sampleDC)⟩

/-- The lane of the sample bridge. -/
def sampleLane : LaneId := (sampleOU, sampleDC)

/-- The stored metadata of the sample bridge. -/
def sampleBridge : Bridge := openedBridge sampleCtx sampleLocs sampleLane 7

/-- A sample outbound backlog of five messages. -/
def c2Queue : List Nat := [1, 2, 3, 4, 5]

/-- The sample opened state with five messages queued outbound. -/
def c2State : PalletState :=
  { sampleOpened with outboundLanes := setA sampleOpened.outboundLanes sampleLane ⟨LaneState.Opened, c2Queue⟩ }

/-! ## The claims -/

/-- C1: Open atomicity — whenever the `open_bridge` body returns an
error at any step (location resolution, owner-account derivation,
deposit hold, `Bridges` insertion, `LaneToBridge` insertion, or lane
creation), the dispatched call leaves the pallet and escrow state
exactly as before the call: the transactional dispatch layer rolls
back every partial write, so no bridge entry, reverse-index entry,
lane, or held deposit persists. -/
theorem C1_open_atomicity (ctx : Ctx) (o : Option Location) (d : VersionedInteriorLocation)
    (s : PalletState) (e : PalletError) (h : open_bridge ctx o d s = Except.error e) :
    open_bridge_call ctx o d s = (s, some e) := by
  rw [open_bridge_call, h]
  rfl

/-- C1 witness: a second open of the sample bridge fails (after the
deposit hold has already mutated the escrow) and the dispatched call
leaves the state untouched. -/
theorem C1_open_atomicity_witness :
    open_bridge sampleCtx sampleOrigin sampleDest sampleOpened =
      Except.error PalletError.BridgeAlreadyExists ∧
    open_bridge_call sampleCtx sampleOrigin sampleDest sampleOpened =
      (sampleOpened, some PalletError.BridgeAlreadyExists) :=
  ⟨rfl, C1_open_atomicity sampleCtx sampleOrigin sampleDest sampleOpened
    PalletError.BridgeAlreadyExists rfl⟩

/-- C2: Close monotonic drain — for a bridge whose outbound lane holds
the queue `q` and per-call budget `B > 0`: after any `j` repeated
`close_bridge` calls that have not yet exhausted the queue
(`j * B < q.length`), exactly `j * B` messages have been pruned,
strictly oldest-first (the remaining queue is the suffix
`q.drop (j * B)`), with the bridge, both lanes, the reverse-index
entry and the escrow intact; and for any `j ≥ 1` with
`j * B ≥ q.length` (the final call and all later ones), the bridge
entry, the reverse-index entry and both lanes are deleted and the
reserve has been released back to the owner. -/
theorem C2_close_monotonic_drain (ctx : Ctx) (rel : Location)
    (dest : VersionedInteriorLocation) (dC : InteriorLocation) (locs : BridgeLocations)
    (b : Bridge) (ist ost : LaneState) (q : List Nat) (B : Nat) (s : PalletState)
    (hdest : tryIntoLatestInterior dest = some dC)
    (hlocs : BridgeLocations.bridge_locations ctx.universalLocation rel dC ctx.bridgedNetwork =
      Except.ok locs)
    (hb : lookupA s.bridges locs.bridge_id = some b)
    (hin : lookupA s.inboundLanes b.lane_id = some ist)
    (hout : lookupA s.outboundLanes b.lane_id = some ⟨ost, q⟩)
    (hB : 0 < B)
    (hfail : ctx.releaseFails b.bridge_owner_account b.reserve = false)
    (hheld0 : b.reserve ≤ (lookupA s.held b.bridge_owner_account).getD 0) :
    (∀ j, j * B < q.length →
      MidDrain s locs.bridge_id b q (close_calls ctx (some rel) dest B j s) (j * B)) ∧
    (∀ j, 1 ≤ j → q.length ≤ j * B →
      Drained s locs.bridge_id b (close_calls ctx (some rel) dest B j s)) :=
  ⟨fun j hj => close_calls_mid ctx rel dest dC locs b ist ost q B s
      hdest hlocs hb hin hout hB j (Or.inl hj),
   close_calls_drained ctx rel dest dC locs b ist ost q B s
      hdest hlocs hb hin hout hB hfail hheld0⟩

/-- C2 witness: with five queued messages and budget 2, after one call
two messages are pruned oldest-first, and after three calls the bridge
is fully drained, deleted and refunded. -/
theorem C2_close_monotonic_drain_witness :
    MidDrain c2State sampleLocs.bridge_id sampleBridge [1, 2, 3, 4, 5]
      (close_calls sampleCtx (some 7) sampleDest 2 1 c2State) (1 * 2) ∧
    Drained c2State sampleLocs.bridge_id sampleBridge
      (close_calls sampleCtx (some 7) sampleDest 2 3 c2State) :=
  ⟨(C2_close_monotonic_drain sampleCtx 7 sampleDest sampleDC sampleLocs sampleBridge
      LaneState.Opened LaneState.Opened [1, 2, 3, 4, 5] 2 c2State rfl rfl
      rfl rfl rfl (by decide) rfl (by decide)).1 1 (by decide),
   (C2_close_monotonic_drain sampleCtx 7 sampleDest sampleDC sampleLocs sampleBridge
      LaneState.Opened LaneState.Opened [1, 2, 3, 4, 5] 2 c2State rfl rfl
      rfl rfl rfl (by decide) rfl (by decide)).2 3 (by decide)
      (by decide)⟩

/-- C3: Registry consistency invariant — every state reachable from an
empty (or genesis-seeded) registry by any sequence of successful
`open_bridge`/`close_bridge` calls passes the `do_try_state`
consistency audit: the reverse map agrees with every `Bridges` entry,
every stored `bridge_id` and `bridge_owner_account` match the values
recomputed from the stored locations, and the forward and reverse maps
have equal cardinality. -/
theorem C3_registry_consistency (ctx : Ctx) (s0 s : PalletState)
    (h0 : emptyRegistry s0 ∨ genesisSeeded ctx s0)
    (hr : Reachable ctx s0 s) :
    do_try_state ctx s = Except.ok () := by
  have hInv0 : Inv ctx s0 := by
    rcases h0 with h0 | h0
    · exact inv_of_empty_registry ctx h0
    · exact inv_genesis_seeded ctx h0
  exact audit_of_inv ctx s (inv_reachable ctx hr hInv0)

/-- C3 witness: the state after one successful open from an
empty-registry state passes the audit. -/
theorem C3_registry_consistency_witness :
    do_try_state sampleCtx sampleOpened = Except.ok () :=
  C3_registry_consistency sampleCtx sampleState25 sampleOpened
    (Or.inl ⟨rfl, rfl⟩)
    (Relation.ReflTransGen.single
      (SuccessfulCall.openCall sampleOrigin sampleDest sampleState25 sampleOpened rfl))

/-- The state after opening the sample bridge from a state whose owner
was funded with exactly one deposit. -/
def c4Opened : PalletState :=
  (open_bridge_call sampleCtx sampleOrigin sampleDest sampleState0).1

/-- C4 counterexample: the first open succeeded for the sample pair
(and consumed the owner's free balance), yet the second `open_bridge`
call for the same pair fails with `FailedToReserveBridgeDeposit` at
the deposit-hold step — not with `BridgeAlreadyExists` at a map
insertion, as the claim states. -/
theorem C4_open_uniqueness_counterexample :
    open_bridge sampleCtx sampleOrigin sampleDest sampleState0 = Except.ok c4Opened ∧
    open_bridge sampleCtx sampleOrigin sampleDest c4Opened =
      Except.error PalletError.FailedToReserveBridgeDeposit ∧
    ¬ open_bridge sampleCtx sampleOrigin sampleDest c4Opened =
      Except.error PalletError.BridgeAlreadyExists := by
  refine ⟨rfl, rfl, ?_⟩
  intro h
  injection h with h
  exact PalletError.noConfusion h

/-- C4 (amended): if `open_bridge` has already succeeded for a pair
and the owner account can still fund another deposit hold at the time
of the second call, the second `open_bridge` call for the same pair
fails deterministically at the `Bridges`-map insertion step with
`BridgeAlreadyExists`, and the first call's state (bridge entry,
reverse-index entry, lanes, held deposit) is unaffected. -/
theorem C4_open_uniqueness_amended (ctx : Ctx) (rel : Location)
    (dest : VersionedInteriorLocation) (dC : InteriorLocation) (locs : BridgeLocations)
    (lane : LaneId) (owner : AccountId) (s s1 : PalletState)
    (hdest : tryIntoLatestInterior dest = some dC)
    (hlocs : BridgeLocations.bridge_locations ctx.universalLocation rel dC ctx.bridgedNetwork =
      Except.ok locs)
    (hlane : locs.calculate_lane_id dest.1 = Except.ok lane)
    (hconv : ctx.convertLocation locs.bridge_origin_relative_location = some owner)
    (hopen : open_bridge ctx (some rel) dest s = Except.ok s1)
    (hfunds : ctx.bridgeDeposit ≤ (lookupA s1.free owner).getD 0) :
    open_bridge ctx (some rel) dest s1 = Except.error PalletError.BridgeAlreadyExists ∧
    open_bridge_call ctx (some rel) dest s1 = (s1, some PalletError.BridgeAlreadyExists) := by
  obtain ⟨rel', dC', locs', lane', owner', ho', hdest', hlocs', hlane', hconv', hbid', hlto',
    hbr, hltb⟩ := open_bridge_ok_inversion ctx (some rel) dest s s1 hopen
  have hrel : rel = rel' := Option.some_injective _ ho'
  subst hrel
  rw [hdest] at hdest'
  have hdCe : dC = dC' := Option.some_injective _ hdest'
  subst hdCe
  rw [hlocs] at hlocs'
  have hlocse : locs = locs' := by
    injection hlocs' with h
  subst hlocse
  rw [hlane] at hlane'
  have hlanee : lane = lane' := by
    injection hlane' with h
  subst hlanee
  rw [hconv] at hconv'
  have howner : owner = owner' := Option.some_injective _ hconv'
  subst howner
  have hlook : lookupA s1.bridges locs.bridge_id =
      some (openedBridge ctx locs lane owner) := by
    rw [hbr]
    exact lookupA_setA_self _ _ _
  have hnotlt : ¬(lookupA s1.free owner).getD 0 < ctx.bridgeDeposit := Nat.not_lt.mpr hfunds
  have herr : open_bridge ctx (some rel) dest s1 =
      Except.error PalletError.BridgeAlreadyExists := by
    simp only [open_bridge, hdest, hlocs, hlane, hconv, hold_deposit, if_neg hnotlt, hlook]
  refine ⟨herr, ?_⟩
  rw [open_bridge_call, herr]
  rfl

/-- C4 witness for the amended claim: with the owner funded for two
deposits, the second open fails with `BridgeAlreadyExists` and leaves
the first call's state untouched. -/
theorem C4_open_uniqueness_amended_witness :
    open_bridge sampleCtx (some 7) sampleDest sampleOpened =
      Except.error PalletError.BridgeAlreadyExists ∧
    open_bridge_call sampleCtx (some 7) sampleDest sampleOpened =
      (sampleOpened, some PalletError.BridgeAlreadyExists) :=
  C4_open_uniqueness_amended sampleCtx 7 sampleDest sampleDC sampleLocs sampleLane 7
    sampleState25 sampleOpened rfl rfl rfl rfl rfl (by decide)

theorem close_final_state_spec (ctx : Ctx) (s : PalletState) (bid : BridgeId) (b : Bridge)
    (n : Nat) :
    (close_final_state ctx s bid b n).bridges = removeA s.bridges bid ∧
    (close_final_state ctx s bid b n).laneToBridge = removeA s.laneToBridge b.lane_id ∧
    (close_final_state ctx s bid b n).inboundLanes = removeA s.inboundLanes b.lane_id ∧
    (close_final_state ctx s bid b n).outboundLanes = removeA s.outboundLanes b.lane_id ∧
    (close_final_state ctx s bid b n).events = s.events ++ [Event.BridgePruned bid b.lane_id
      (if ctx.releaseFails b.bridge_owner_account b.reserve then none
       else some (min b.reserve ((lookupA s.held b.bridge_owner_account).getD 0))) n] := by
  simp only [close_final_state, release_best_effort]
  split <;> simp

/-- C5: Best-effort deposit release — when the outbound queue is empty
after pruning, the call always succeeds: both lanes are purged, the
`Bridges` and reverse-index entries are removed unconditionally, and
the `BridgePruned` event carries the actually-released amount — the
best-effort released value when the escrow release works, and `none`
when the external release fails; a release failure never makes the
call return an error. -/
theorem C5_best_effort_release (ctx : Ctx) (rel : Location)
    (dest : VersionedInteriorLocation) (dC : InteriorLocation) (locs : BridgeLocations)
    (b : Bridge) (ist : LaneState) (out : OutboundLaneData) (B : Nat) (s : PalletState)
    (hdest : tryIntoLatestInterior dest = some dC)
    (hlocs : BridgeLocations.bridge_locations ctx.universalLocation rel dC ctx.bridgedNetwork =
      Except.ok locs)
    (hb : lookupA s.bridges locs.bridge_id = some b)
    (hin : lookupA s.inboundLanes b.lane_id = some ist)
    (hout : lookupA s.outboundLanes b.lane_id = some out)
    (hB : out.queue.length ≤ B) :
    ∃ s', close_bridge ctx (some rel) dest B s = Except.ok s' ∧
      lookupA s'.bridges locs.bridge_id = none ∧
      lookupA s'.laneToBridge b.lane_id = none ∧
      lookupA s'.inboundLanes b.lane_id = none ∧
      lookupA s'.outboundLanes b.lane_id = none ∧
      s'.events = s.events ++ [Event.BridgePruned locs.bridge_id b.lane_id
        (if ctx.releaseFails b.bridge_owner_account b.reserve then none
         else some (min b.reserve ((lookupA s.held b.bridge_owner_account).getD 0)))
        out.queue.length] := by
  refine ⟨close_final_state ctx s locs.bridge_id b out.queue.length,
    close_bridge_final ctx rel dest dC locs b ist out B s hdest hlocs hb hin hout hB,
    ?_, ?_, ?_, ?_, ?_⟩
  · rw [(close_final_state_spec ctx s locs.bridge_id b out.queue.length).1]
    exact lookupA_removeA_self _ _
  · rw [(close_final_state_spec ctx s locs.bridge_id b out.queue.length).2.1]
    exact lookupA_removeA_self _ _
  · rw [(close_final_state_spec ctx s locs.bridge_id b out.queue.length).2.2.1]
    exact lookupA_removeA_self _ _
  · rw [(close_final_state_spec ctx s locs.bridge_id b out.queue.length).2.2.2.1]
    exact lookupA_removeA_self _ _
  · exact (close_final_state_spec ctx s locs.bridge_id b out.queue.length).2.2.2.2

/-- A runtime configuration whose escrow release always fails
externally. -/
def failCtx : Ctx :=
  ⟨⟨0, 0⟩, 1, 10, fun l => some l, fun _ _ => true⟩

/-- The sample bridge opened under the failing-release configuration. -/
def failOpened : PalletState :=
  (open_bridge_call failCtx sampleOrigin sampleDest sampleState25).1

/-- C5 witness: under a configuration whose escrow release fails, the
final close still succeeds, fully deletes the bridge, and the
`BridgePruned` event carries no released amount. -/
theorem C5_best_effort_release_witness :
    ∃ s', close_bridge failCtx (some 7) sampleDest 0 failOpened = Except.ok s' ∧
      lookupA s'.bridges sampleLocs.bridge_id = none ∧
      lookupA s'.laneToBridge sampleLane = none ∧
      lookupA s'.inboundLanes sampleLane = none ∧
      lookupA s'.outboundLanes sampleLane = none ∧
      s'.events = failOpened.events ++ [Event.BridgePruned sampleLocs.bridge_id sampleLane
        (if failCtx.releaseFails 7 10 then none
         else some (min 10 ((lookupA failOpened.held 7).getD 0))) 0] :=
  C5_best_effort_release failCtx 7 sampleDest sampleDC sampleLocs
    (openedBridge failCtx sampleLocs sampleLane 7) LaneState.Opened
    ⟨LaneState.Opened, []⟩ 0 failOpened rfl rfl rfl rfl rfl (by decide)

/-- C6: Close lookup and idempotent state flip — for every
`close_bridge` call whose locations resolve: the call fails with
`UnknownBridge` if and only if no `Bridges` entry exists at the
derived bridge id; when the entry exists and the call succeeds, the
stored state ends up unconditionally `Closed` (or the whole bridge is
deleted); and a repeated close of an already-`Closed` bridge with its
lanes still present succeeds rather than erroring. -/
theorem C6_close_lookup_flip (ctx : Ctx) (rel : Location)
    (dest : VersionedInteriorLocation) (dC : InteriorLocation) (locs : BridgeLocations)
    (B : Nat) (s : PalletState)
    (hdest : tryIntoLatestInterior dest = some dC)
    (hlocs : BridgeLocations.bridge_locations ctx.universalLocation rel dC ctx.bridgedNetwork =
      Except.ok locs) :
    (close_bridge ctx (some rel) dest B s = Except.error PalletError.UnknownBridge ↔
      lookupA s.bridges locs.bridge_id = none) ∧
    (∀ b s', lookupA s.bridges locs.bridge_id = some b →
      close_bridge ctx (some rel) dest B s = Except.ok s' →
      lookupA s'.bridges locs.bridge_id = some { b with state := BridgeState.Closed } ∨
      lookupA s'.bridges locs.bridge_id = none) ∧
    (∀ b ist out, lookupA s.bridges locs.bridge_id = some b →
      b.state = BridgeState.Closed →
      lookupA s.inboundLanes b.lane_id = some ist →
      lookupA s.outboundLanes b.lane_id = some out →
      ∃ s', close_bridge ctx (some rel) dest B s = Except.ok s') := by
  refine ⟨⟨?_, ?_⟩, ?_, ?_⟩
  · intro h
    cases hcb : lookupA s.bridges locs.bridge_id with
    | none => rfl
    | some b =>
      exfalso
      cases hcin : lookupA s.inboundLanes b.lane_id with
      | none =>
        rw [close_bridge_no_inbound ctx rel dest dC locs b B s hdest hlocs hcb hcin] at h
        injection h with h
        exact PalletError.noConfusion h
      | some ist =>
        cases hcout : lookupA s.outboundLanes b.lane_id with
        | none =>
          rw [close_bridge_no_outbound ctx rel dest dC locs b ist B s hdest hlocs hcb hcin
            hcout] at h
          injection h with h
          exact PalletError.noConfusion h
        | some out =>
          by_cases hq : B < out.queue.length
          · rw [close_bridge_nonempty_queue ctx rel dest dC locs b ist out B s hdest hlocs hcb hcin
              hcout hq] at h
            exact Except.noConfusion h
          · rw [close_bridge_final ctx rel dest dC locs b ist out B s hdest hlocs hcb hcin
              hcout (Nat.le_of_not_lt hq)] at h
            exact Except.noConfusion h
  · intro h
    exact close_bridge_unknown ctx rel dest dC locs B s hdest hlocs h
  · intro b s' hb hok
    obtain ⟨rel', dC', locs', b', ho', hdest', hlocs', hb', hcase⟩ :=
      close_bridge_ok_inversion ctx (some rel) dest B s s' hok
    have hrel : rel = rel' := Option.some_injective _ ho'
    subst hrel
    rw [hdest] at hdest'
    have hdCe : dC = dC' := Option.some_injective _ hdest'
    subst hdCe
    rw [hlocs] at hlocs'
    have hlocse : locs = locs' := by
      injection hlocs' with h
    subst hlocse
    rw [hb] at hb'
    have hbe : b = b' := Option.some_injective _ hb'
    subst hbe
    rcases hcase with ⟨hbr, _⟩ | ⟨hbr, _⟩
    · left
      rw [hbr]
      exact lookupA_setA_self _ _ _
    · right
      rw [hbr]
      exact lookupA_removeA_self _ _
  · intro b ist out hb _ hin hout
    by_cases hq : B < out.queue.length
    · exact ⟨_, close_bridge_nonempty_queue ctx rel dest dC locs b ist out B s hdest hlocs hb hin
        hout hq⟩
    · exact ⟨_, close_bridge_final ctx rel dest dC locs b ist out B s hdest hlocs hb hin
        hout (Nat.le_of_not_lt hq)⟩

/-- The sample drained-in-progress bridge: one close call with budget
0 on the backlogged state, leaving the bridge `Closed` with both lanes
`Closed` and the full queue intact. -/
def c6Closed : PalletState :=
  (close_bridge_call sampleCtx sampleOrigin sampleDest 0 c2State).1

/-- C6 witness: a repeated close of the already-`Closed` sample bridge
succeeds rather than erroring. -/
theorem C6_close_lookup_flip_witness :
    ∃ s', close_bridge sampleCtx (some 7) sampleDest 0 c6Closed = Except.ok s' :=
  (C6_close_lookup_flip sampleCtx 7 sampleDest sampleDC sampleLocs 0 c6Closed rfl rfl).2.2
    { sampleBridge with state := BridgeState.Closed } LaneState.Closed
    ⟨LaneState.Closed, c2Queue⟩ rfl rfl rfl rfl

/-- C7: Close lane-desync errors with full abort — when the `Bridges`
entry exists but the inbound lane is missing, `close_bridge` fails
with `LanesManager UnknownInboundLane`; when the inbound lane exists
but the outbound lane is missing, it fails with
`LanesManager UnknownOutboundLane`; and in either case the dispatched
call leaves the state exactly as before, so the state-to-`Closed` flip
performed earlier in the same call does not persist. -/
theorem C7_close_lane_desync (ctx : Ctx) (rel : Location)
    (dest : VersionedInteriorLocation) (dC : InteriorLocation) (locs : BridgeLocations)
    (b : Bridge) (B : Nat) (s : PalletState)
    (hdest : tryIntoLatestInterior dest = some dC)
    (hlocs : BridgeLocations.bridge_locations ctx.universalLocation rel dC ctx.bridgedNetwork =
      Except.ok locs)
    (hb : lookupA s.bridges locs.bridge_id = some b) :
    (lookupA s.inboundLanes b.lane_id = none →
      close_bridge ctx (some rel) dest B s =
        Except.error (PalletError.LanesManager LanesManagerError.UnknownInboundLane) ∧
      close_bridge_call ctx (some rel) dest B s =
        (s, some (PalletError.LanesManager LanesManagerError.UnknownInboundLane))) ∧
    (∀ ist, lookupA s.inboundLanes b.lane_id = some ist →
      lookupA s.outboundLanes b.lane_id = none →
      close_bridge ctx (some rel) dest B s =
        Except.error (PalletError.LanesManager LanesManagerError.UnknownOutboundLane) ∧
      close_bridge_call ctx (some rel) dest B s =
        (s, some (PalletError.LanesManager LanesManagerError.UnknownOutboundLane))) := by
  constructor
  · intro hin
    have herr := close_bridge_no_inbound ctx rel dest dC locs b B s hdest hlocs hb hin
    refine ⟨herr, ?_⟩
    rw [close_bridge_call, herr]
    rfl
  · intro ist hin hout
    have herr := close_bridge_no_outbound ctx rel dest dC locs b ist B s hdest hlocs hb hin
      hout
    refine ⟨herr, ?_⟩
    rw [close_bridge_call, herr]
    rfl

/-- The sample opened state with its inbound lane manually purged (a
registry/lane-store desynchronization). -/
def c7State : PalletState := { sampleOpened with inboundLanes := [] }

/-- C7 witness: closing the sample bridge whose inbound lane is
missing fails with `UnknownInboundLane` and leaves the state
untouched. -/
theorem C7_close_lane_desync_witness :
    close_bridge sampleCtx (some 7) sampleDest 0 c7State =
      Except.error (PalletError.LanesManager LanesManagerError.UnknownInboundLane) ∧
    close_bridge_call sampleCtx (some 7) sampleDest 0 c7State =
      (c7State, some (PalletError.LanesManager LanesManagerError.UnknownInboundLane)) :=
  (C7_close_lane_desync sampleCtx 7 sampleDest sampleDC sampleLocs sampleBridge 0 c7State
    rfl rfl rfl).1 rfl

/-- C8: Partial-close frame condition — when the outbound queue is
still non-empty after pruning, the call succeeds; both lane states are
set to `Closed` and the pruned queue suffix is stored; the
`ClosingBridge` event carries the number pruned in this call and the
number still enqueued; and everything else is untouched: the `Bridges`
entry keeps all its fields except the state flip to `Closed`, the
reverse-index map, the free balances and the held deposits are exactly
as before the call. -/
theorem C8_partial_close_frame (ctx : Ctx) (rel : Location)
    (dest : VersionedInteriorLocation) (dC : InteriorLocation) (locs : BridgeLocations)
    (b : Bridge) (ist : LaneState) (out : OutboundLaneData) (B : Nat) (s : PalletState)
    (hdest : tryIntoLatestInterior dest = some dC)
    (hlocs : BridgeLocations.bridge_locations ctx.universalLocation rel dC ctx.bridgedNetwork =
      Except.ok locs)
    (hb : lookupA s.bridges locs.bridge_id = some b)
    (hin : lookupA s.inboundLanes b.lane_id = some ist)
    (hout : lookupA s.outboundLanes b.lane_id = some out)
    (hB : B < out.queue.length) :
    ∃ s', close_bridge ctx (some rel) dest B s = Except.ok s' ∧
      s'.bridges = setA s.bridges locs.bridge_id { b with state := BridgeState.Closed } ∧
      s'.laneToBridge = s.laneToBridge ∧
      s'.free = s.free ∧
      s'.held = s.held ∧
      s'.inboundLanes = setA s.inboundLanes b.lane_id LaneState.Closed ∧
      s'.outboundLanes = setA s.outboundLanes b.lane_id ⟨LaneState.Closed, out.queue.drop B⟩ ∧
      s'.events = s.events ++
        [Event.ClosingBridge locs.bridge_id b.lane_id B (out.queue.length - B)] :=
  ⟨_, close_bridge_nonempty_queue ctx rel dest dC locs b ist out B s hdest hlocs hb hin hout hB,
    rfl, rfl, rfl, rfl, rfl, rfl, rfl⟩

/-- C8 witness: a budget-2 close of the sample backlogged bridge
prunes the two oldest messages, closes the lanes and leaves bridge
metadata, reverse index and escrow untouched. -/
theorem C8_partial_close_frame_witness :
    ∃ s', close_bridge sampleCtx (some 7) sampleDest 2 c2State = Except.ok s' ∧
      s'.bridges = setA c2State.bridges sampleLocs.bridge_id
        { sampleBridge with state := BridgeState.Closed } ∧
      s'.laneToBridge = c2State.laneToBridge ∧
      s'.free = c2State.free ∧
      s'.held = c2State.held ∧
      s'.inboundLanes = setA c2State.inboundLanes sampleLane LaneState.Closed ∧
      s'.outboundLanes = setA c2State.outboundLanes sampleLane
        ⟨LaneState.Closed, c2Queue.drop 2⟩ ∧
      s'.events = c2State.events ++
        [Event.ClosingBridge sampleLocs.bridge_id sampleLane 2 (c2Queue.length - 2)] :=
  C8_partial_close_frame sampleCtx 7 sampleDest sampleDC sampleLocs sampleBridge
    LaneState.Opened ⟨LaneState.Opened, c2Queue⟩ 2 c2State rfl rfl rfl rfl rfl (by decide)

/-- C9: `bridge_by_lane_id` totality and agreement — for every lane,
the lookup returns `some (bridge_id, bridge)` exactly when the reverse
index maps the lane to `bridge_id` and `Bridges` holds `bridge` there;
in every other case (lane absent from the reverse index, or a dangling
reverse entry whose bridge id has no record) it returns `none` without
error. -/
theorem C9_bridge_by_lane_id_spec (s : PalletState) (lane : LaneId) :
    (∀ bid b, bridge_by_lane_id s lane = some (bid, b) ↔
      (lookupA s.laneToBridge lane = some bid ∧ lookupA s.bridges bid = some b)) ∧
    (bridge_by_lane_id s lane = none ↔
      (lookupA s.laneToBridge lane = none ∨
        ∃ bid, lookupA s.laneToBridge lane = some bid ∧ lookupA s.bridges bid = none)) := by
  have hbb : bridge_by_lane_id s lane =
      (lookupA s.laneToBridge lane).bind
        (fun bid => (lookupA s.bridges bid).map (fun b => (bid, b))) := rfl
  cases hl : lookupA s.laneToBridge lane with
  | none =>
    have hv : bridge_by_lane_id s lane = none := by
      rw [hbb, hl]
      rfl
    constructor
    · intro bid b
      constructor
      · intro h
        rw [hv] at h
        exact Option.noConfusion h
      · rintro ⟨h1, _⟩
        exact Option.noConfusion h1
    · constructor
      · intro _
        exact Or.inl rfl
      · intro _
        exact hv
  | some bid0 =>
    cases hb : lookupA s.bridges bid0 with
    | none =>
      have hv : bridge_by_lane_id s lane = none := by
        rw [hbb, hl]
        simp [hb]
      constructor
      · intro bid b
        constructor
        · intro h
          rw [hv] at h
          exact Option.noConfusion h
        · rintro ⟨h1, h2⟩
          have hbe : bid0 = bid := Option.some_injective _ h1
          subst hbe
          rw [hb] at h2
          exact Option.noConfusion h2
      · constructor
        · intro _
          exact Or.inr ⟨bid0, rfl, hb⟩
        · intro _
          exact hv
    | some b0 =>
      have hv : bridge_by_lane_id s lane = some (bid0, b0) := by
        rw [hbb, hl]
        simp [hb]
      constructor
      · intro bid b
        constructor
        · intro h
          rw [hv] at h
          have h2 : (bid0, b0) = (bid, b) := Option.some_injective _ h
          have hb1 : bid0 = bid := congrArg Prod.fst h2
          have hb2 : b0 = b := congrArg Prod.snd h2
          subst hb1
          subst hb2
          exact ⟨rfl, hb⟩
        · rintro ⟨h1, h2⟩
          have hbe : bid0 = bid := Option.some_injective _ h1
          subst hbe
          rw [hb] at h2
          have hbe2 : b0 = b := Option.some_injective _ h2
          subst hbe2
          exact hv
      · constructor
        · intro h
          rw [hv] at h
          exact Option.noConfusion h
        · rintro (h1 | ⟨bid, h1, h2⟩)
          · exact Option.noConfusion h1
          · have hbe : bid0 = bid := Option.some_injective _ h1
            subst hbe
            rw [hb] at h2
            exact Option.noConfusion h2

/-- The sample genesis configuration: one bridge from relative
location 7 to destination `⟨1, 99⟩`. -/
def gCfg : List (Location × InteriorLocation) := [(7, ⟨1, 99⟩)]

/-- The state produced by building the sample genesis configuration
over the empty state. -/
def gState : PalletState :=
  match genesis_build sampleCtx gCfg emptyState with
  | Except.ok s => s
  | Except.error _ => emptyState

/-- C10: Genesis seeding establishes the same invariants as open — for
every configured pair, a successful genesis build has inserted a
`Bridge` with state `Opened`, zero reserve and no deposit held (free
and held balances are exactly those of the initial state), together
with the matching reverse-index entry and both lanes; and the
resulting registry satisfies the two-map bijection (it passes the
consistency audit) and the bridge-iff-lanes invariant in both
directions. -/
theorem C10_genesis_invariants (ctx : Ctx) (cfg : List (Location × InteriorLocation))
    (s0 s : PalletState)
    (h0 : s0.bridges = [] ∧ s0.laneToBridge = [] ∧ s0.inboundLanes = [] ∧
      s0.outboundLanes = [])
    (hg : genesis_build ctx cfg s0 = Except.ok s) :
    (∀ p, p ∈ cfg → ∃ locs lane owner,
      BridgeLocations.bridge_locations ctx.universalLocation p.1 p.2 ctx.bridgedNetwork =
        Except.ok locs ∧
      locs.calculate_lane_id xcmLatestVersion = Except.ok lane ∧
      ctx.convertLocation locs.bridge_origin_relative_location = some owner ∧
      (∃ br, lookupA s.bridges locs.bridge_id = some br ∧ br.state = BridgeState.Opened ∧
        br.reserve = 0 ∧ br.lane_id = lane ∧ br.bridge_owner_account = owner) ∧
      lookupA s.laneToBridge lane = some locs.bridge_id ∧
      lookupA s.inboundLanes lane = some LaneState.Opened ∧
      lookupA s.outboundLanes lane = some ⟨LaneState.Opened, []⟩) ∧
    s.free = s0.free ∧ s.held = s0.held ∧
    do_try_state ctx s = Except.ok () ∧
    (∀ bid b, (bid, b) ∈ s.bridges →
      (lookupA s.inboundLanes b.lane_id).isSome ∧
      (lookupA s.outboundLanes b.lane_id).isSome) ∧
    (∀ lane st, (lane, st) ∈ s.inboundLanes →
      ∃ bid b, lookupA s.bridges bid = some b ∧ b.lane_id = lane) ∧
    (∀ lane ld, (lane, ld) ∈ s.outboundLanes →
      ∃ bid b, lookupA s.bridges bid = some b ∧ b.lane_id = lane) := by
  obtain ⟨h1, h2, h3, h4⟩ := h0
  obtain ⟨hGen, hfree, hheld, _, hpairs⟩ :=
    genesis_build_facts ctx cfg s0 s hg (genInv_of_empty ctx h1 h2 h3 h4)
  refine ⟨?_, hfree, hheld, audit_of_inv ctx s hGen.1, ?_, ?_, ?_⟩
  · intro p hp
    obtain ⟨locs, lane, owner, hl1, hl2, hl3, hl4, hl5, hl6, hl7⟩ := hpairs p hp
    exact ⟨locs, lane, owner, hl1, hl2, hl3,
      ⟨genesisBridge locs lane owner, hl4, rfl, rfl, rfl, rfl⟩, hl5, hl6, hl7⟩
  · intro bid b hmem
    exact (hGen.2.1 bid b hmem).2
  · intro lane st hmem
    obtain ⟨b, hb, hl⟩ := hGen.2.2.1 lane st hmem
    exact ⟨(lane.1, lane.2), b, hb, hl⟩
  · intro lane ld hmem
    obtain ⟨b, hb, hl⟩ := hGen.2.2.2 lane ld hmem
    exact ⟨(lane.1, lane.2), b, hb, hl⟩

/-- C10 witness: the sample genesis configuration builds successfully
over the empty state, no deposit is held, and the resulting registry
passes the audit. -/
theorem C10_genesis_invariants_witness :
    gState.held = emptyState.held ∧ do_try_state sampleCtx gState = Except.ok () :=
  ⟨(C10_genesis_invariants sampleCtx gCfg emptyState gState ⟨rfl, rfl, rfl, rfl⟩
      rfl).2.2.1,
   (C10_genesis_invariants sampleCtx gCfg emptyState gState ⟨rfl, rfl, rfl, rfl⟩
      rfl).2.2.2.1⟩

end XcmBridgeHub
